import Mathlib

/-!
Shallow embedding of the CIDL remote dataset access, caching and reconciliation
layer (source files: `backend.py`, `src/cidl/loaders.py`, `truth_matcher.py`).

Conventions of the embedding:
* Python exceptions are modelled by the inductive `PyExn`; a Python function
  that may raise returns `Except PyExn α`.
* The remote S3 store is external to the repository; it is modelled as an
  explicit parameter (a function from keys to outcomes) threaded through the
  definitions that use it.
* Pandas data frames are opaque payloads; only their identity matters to the
  properties proved here, so they are modelled by the one-field structure
  `Frame`.
* Python `dict[int, X]` values are modelled as association lists
  `List (Int × X)` in insertion order; `sorted(xs)` is modelled as
  `xs.insertionSort (· ≤ ·)` and `set(xs)` as `xs.dedup` (both are
  kernel-reducible, so witnesses can evaluate them on concrete inputs).
-/

/-- Model of a Python exception value, tagged by the exception class. -/
inductive PyExn where
  | typeError (msg : String)
  | valueError (msg : String)
  | fileNotFound (msg : String)
  | runtimeError (msg : String)
  | clientError (code : String) (msg : String)
  | permissionError (msg : String)
  | otherError
deriving DecidableEq, Repr

deriving instance DecidableEq for Except

/-- Model of a parsed tabular data frame (opaque payload). -/
structure Frame where
  id : Nat
deriving DecidableEq, Repr

/-- Model of the outcome of loading one object from the remote store via
`loaders.load_file`: success, a botocore `ClientError` carrying the error code
and the rendered message, a Python `FileNotFoundError`, or any other
exception. -/
inductive LoadResult where
  | ok (f : Frame)
  | clientError (code : String) (msg : String)
  | fileNotFound
  | otherError
deriving DecidableEq, Repr

/-- Model of the remote truth store: maps a full object key to the outcome of
attempting to load it. -/
def TruthStore := String → LoadResult

/-- Structural model of Python `str.strip()` (kernel-reducible, unlike
`String.trim`). -/
def strTrim (s : String) : String :=
  String.mk (((s.data.dropWhile Char.isWhitespace).reverse.dropWhile Char.isWhitespace).reverse)

/-- Structural model of Python `str.strip(c)` for a single strip character. -/
def stripChar (c : Char) (s : String) : String :=
  String.mk (((s.data.dropWhile (· = c)).reverse.dropWhile (· = c)).reverse)

/-- Character-list test: the first list is a leading segment of the second. -/
def startsWithChars : List Char → List Char → Bool
  | [], _ => true
  | _ :: _, [] => false
  | p :: ps, c :: cs => p = c && startsWithChars ps cs

/-- Character-list substring test, modelling Python `pat in s`. -/
def containsChars (pat : List Char) : List Char → Bool
  | [] => pat.isEmpty
  | c :: rest => startsWithChars pat (c :: rest) || containsChars pat rest

/-- Structural model of Python `str.lower()`. -/
def strToLower (s : String) : String :=
  String.mk (s.data.map Char.toLower)

/-- Structural lexicographic string order, modelling Python string `<=`. -/
def charsLe : List Char → List Char → Bool
  | [], _ => true
  | _ :: _, [] => false
  | a :: as, b :: bs => if a = b then charsLe as bs else decide (a < b)

/-- Embedding of `truth_matcher._normalize_indices`: a list of indices becomes
the sorted list of its distinct elements. -/
def _normalize_indices (indices : List Int) : List Int :=
  indices.dedup.insertionSort (· ≤ ·)

/-- Model of Python `sorted(set(a) - set(b))`. -/
def sortedSetDiff (a b : List Int) : List Int :=
  (a.dedup.filter (fun x => decide (¬ x ∈ b))).insertionSort (· ≤ ·)

/-- Zero-padded rendering of an index, Python `f"{i:04d}"`. -/
def pad4 (i : Int) : String :=
  let digits := toString i.natAbs
  if i < 0 then
    "-" ++ String.mk (List.replicate (3 - digits.length) '0') ++ digits
  else
    String.mk (List.replicate (4 - digits.length) '0') ++ digits

/-- Embedding of `truth_matcher._truth_key`: strips slashes around the key
namespace and appends the fixed-width truth filename. -/
def _truth_key (index : Int) (pfx : String) : String :=
  stripChar '/' pfx ++ "/truth_" ++ pad4 index ++ ".parquet"

/-- Boolean substring test, used to model Python `"Not Found" in str(e)`. -/
def containsNotFound (s : String) : Bool :=
  containsChars "Not Found".data s.data

/-- Embedding of `truth_matcher._is_missing_s3_object_error`: the code is the
stripped S3 error code of the `ClientError`, `msg` is the rendered exception
text `str(e)`. -/
def _is_missing_s3_object_error (code : String) (msg : String) : Bool :=
  decide (strTrim code ∈ ["404", "NoSuchKey", "NotFound"]) || containsNotFound msg

/-- True when `load_file` on this outcome enters the missing-truth-file path of
`load_truths`: a `ClientError` classified as "not found", or a Python
`FileNotFoundError`. -/
def missingClassified : LoadResult → Bool
  | .ok _ => false
  | .clientError code msg => _is_missing_s3_object_error code msg
  | .fileNotFound => true
  | .otherError => false

/-- Fixed warning text produced for one missing truth file. -/
def missingMsg (idx : Int) (key : String) : String :=
  s!"Truth file not found for index {idx} (key={key})."

/-- Embedding of `truth_matcher._handle_missing_file`: validates the policy
string, then ignores, raises `FileNotFoundError`, or appends a warning. -/
def _handle_missing_file (idx : Int) (key : String) (on_missing : String)
    (warnings_out : List String) : Except PyExn (List String) :=
  if ¬ (on_missing ∈ ["warn", "error", "ignore"]) then
    .error (.valueError "on_missing must be one of [error, ignore, warn]")
  else if on_missing = "ignore" then
    .ok warnings_out
  else if on_missing = "error" then
    .error (.fileNotFound (missingMsg idx key))
  else
    .ok (warnings_out ++ [missingMsg idx key])

/-- Container mirroring the frozen dataclass `truth_matcher.TruthBundle`. -/
structure TruthBundle where
  simulation_indices : List Int
  truth_indices_requested : List Int
  truth : List (Int × Frame)
  missing_truth_files : List Int
  missing_for_simulations : List Int
  extra_truth : List Int
  warnings : List String
deriving DecidableEq, Repr

/-- Embedding of the property `TruthBundle.is_full_match`. -/
def TruthBundle.is_full_match (b : TruthBundle) : Bool :=
  b.missing_for_simulations.isEmpty && b.extra_truth.isEmpty

/-- Embedding of the property `TruthBundle.truth_indices_loaded`:
`sorted(self.truth.keys())`. -/
def TruthBundle.truth_indices_loaded (b : TruthBundle) : List Int :=
  (b.truth.map Prod.fst).insertionSort (· ≤ ·)

/-- Loop body of `load_truths`: walks the normalized indices accumulating the
loaded truth mapping, the missing-file indices and the warnings, propagating
any exception. -/
def loadTruthsGo (store : TruthStore) (pfx : String) (on_missing : String) :
    List Int → List (Int × Frame) → List Int → List String →
    Except PyExn (List (Int × Frame) × List Int × List String)
  | [], truth, missing, warns => .ok (truth, missing, warns)
  | idx :: rest, truth, missing, warns =>
    let key := _truth_key idx pfx
    match store key with
    | .ok f => loadTruthsGo store pfx on_missing rest (truth ++ [(idx, f)]) missing warns
    | .clientError code msg =>
      if _is_missing_s3_object_error code msg then
        match _handle_missing_file idx key on_missing warns with
        | .ok w => loadTruthsGo store pfx on_missing rest truth (missing ++ [idx]) w
        | .error e => .error e
      else
        .error (.clientError code msg)
    | .fileNotFound =>
      match _handle_missing_file idx key on_missing warns with
      | .ok w => loadTruthsGo store pfx on_missing rest truth (missing ++ [idx]) w
      | .error e => .error e
    | .otherError => .error .otherError

/-- Embedding of `truth_matcher.load_truths` (the indices-only entry point;
the `Mapping` type check is enforced here by the Lean input type). -/
def load_truths (store : TruthStore) (indices : List Int)
    (pfx : String := "acic22/truth") (on_missing : String := "warn") :
    Except PyExn TruthBundle :=
  let idxs := _normalize_indices indices
  match loadTruthsGo store pfx on_missing idxs [] [] [] with
  | .error e => .error e
  | .ok (truth, missing, warns) =>
    let loaded := (truth.map Prod.fst).insertionSort (· ≤ ·)
    .ok {
      simulation_indices := idxs
      truth_indices_requested := idxs
      truth := truth
      missing_truth_files := missing.insertionSort (· ≤ ·)
      missing_for_simulations := sortedSetDiff idxs loaded
      extra_truth := []
      warnings := warns }

/-- Embedding of `truth_matcher._format_mismatch_message`. -/
def _format_mismatch_message (sim_indices : List Int) (truth_loaded : List Int)
    (missing_for_sims : List Int) (extra_truth : List Int)
    (missing_files : List Int) : String :=
  let parts : List String :=
    ["Truth/Simulation mismatch detected.",
     s!"- Simulation indices: {sim_indices}",
     s!"- Truth indices loaded: {truth_loaded}"]
  let parts := parts ++
    (if missing_for_sims ≠ [] then
      [s!"- Missing truth for simulation indices: {missing_for_sims}"] else [])
  let parts := parts ++
    (if extra_truth ≠ [] then
      [s!"- Extra truth indices (not in simulations): {extra_truth}"] else [])
  let parts := parts ++
    (if missing_files ≠ [] then
      [s!"- Truth files not found in storage: {missing_files}"] else [])
  let parts := parts ++
    ["Hint: Use automatic index matching (bundle_for_simulations(simulations)) to load exactly the truth datasets corresponding to your simulations."]
  String.intercalate "\n" parts

/-- Embedding of `truth_matcher._handle_mismatch`. Interactivity is made
explicit: `canPrompt` models `_can_prompt()` and `answer` the interactive
reply. -/
def _handle_mismatch (msg : String) (on_mismatch : String) (prompt : Bool)
    (canPrompt : Bool) (answer : String) (warnings_out : List String) :
    Except PyExn (List String) :=
  if ¬ (on_mismatch ∈ ["warn", "error", "ignore"]) then
    .error (.valueError "on_mismatch must be one of [error, ignore, warn]")
  else if on_mismatch = "ignore" then
    .ok warnings_out
  else if on_mismatch = "error" then
    .error (.valueError msg)
  else
    let w := warnings_out ++ [msg]
    if prompt then
      if canPrompt then
        if strToLower (strTrim answer) ∈ ["y", "yes"] then .ok w
        else .error (.runtimeError "Aborted by user due to truth/simulation mismatch.")
      else
        .ok (w ++ ["Prompt requested, but environment is non-interactive; proceeding with warning only."])
    else
      .ok w

/-- Embedding of `truth_matcher.truth_for_simulations`: `simKeys` are the keys
of the simulations mapping (the `Mapping` type check is enforced by the Lean
input type). -/
def truth_for_simulations (store : TruthStore) (simKeys : List Int)
    (truth_indices : Option (List Int) := none)
    (pfx : String := "acic22/truth") (on_missing : String := "warn")
    (on_mismatch : String := "warn") (prompt : Bool := false)
    (canPrompt : Bool := false) (answer : String := "") :
    Except PyExn TruthBundle :=
  let sim_indices := _normalize_indices simKeys
  let truth_requested :=
    match truth_indices with
    | none => sim_indices
    | some t => _normalize_indices t
  match load_truths store truth_requested pfx on_missing with
  | .error e => .error e
  | .ok lb =>
    let truth_loaded := lb.truth_indices_loaded
    let missing_for_sims := sortedSetDiff sim_indices truth_loaded
    let extra_truth := sortedSetDiff truth_loaded sim_indices
    let handled : Except PyExn (List String) :=
      if truth_indices.isSome = true ∧ (missing_for_sims ≠ [] ∨ extra_truth ≠ []) then
        _handle_mismatch
          (_format_mismatch_message sim_indices truth_loaded missing_for_sims
            extra_truth lb.missing_truth_files)
          on_mismatch prompt canPrompt answer lb.warnings
      else
        .ok lb.warnings
    match handled with
    | .error e => .error e
    | .ok w =>
      .ok {
        simulation_indices := sim_indices
        truth_indices_requested := truth_requested
        truth := lb.truth
        missing_truth_files := lb.missing_truth_files
        missing_for_simulations := missing_for_sims
        extra_truth := extra_truth
        warnings := w }

/-!
Embedding of `src/cidl/loaders.py`: byte cache, metadata resolver and the
random simulation loader.
-/

/-- Bytes of a remote object (payload content, abstracted to a list). -/
def Bytes := List Nat

/-- Embedding of `loaders._download_file` over an explicit byte cache: returns
the payload, the updated cache, and the number of remote transfers performed
(`0` or `1`). The remote store is the function `remote`. -/
def _download_file (remote : String → List Nat)
    (cache : List (String × List Nat)) (key : String) (use_cache : Bool) :
    List Nat × List (String × List Nat) × Nat :=
  if use_cache then
    match cache.lookup key with
    | some b => (b, cache, 0)
    | none =>
      let b := remote key
      (b, (key, b) :: cache, 1)
  else
    (remote key, cache, 1)

/-- Record of one entry of the simulation metadata index
(`acic22_metadata.json`), keyed externally by its `index` field; `filename`
and `dgp` model the optional dictionary fields of the JSON record. -/
structure SimRecord where
  filename : Option String := none
  dgp : Option Int := none
deriving DecidableEq, Repr

/-- Record of one entry of the DGP info document (`acic22_dgp_info.json`),
keyed externally by its `dgp` field. -/
structure DgpRecord where
  difficulty_tier : Option String := none
deriving DecidableEq, Repr

/-- Constant `loaders.VALID_DIFFICULTIES`. -/
def VALID_DIFFICULTIES : List String :=
  ["all", "very_easy", "easy", "medium", "hard", "very_hard"]

/-- Embedding of `loaders._difficulty_to_tiers`. -/
def _difficulty_to_tiers (difficulty : Option String) :
    Except PyExn (Option (List String)) :=
  match difficulty with
  | none => .ok none
  | some s =>
    let d := strTrim s
    if ¬ (d ∈ VALID_DIFFICULTIES) then
      .error (.valueError (s!"Invalid difficulty={s}. Allowed values: " ++
        String.intercalate ", "
          (VALID_DIFFICULTIES.insertionSort (fun a b => charsLe a.data b.data = true))))
    else if d = "all" then
      .ok none
    else
      .ok (some [d])

/-- Embedding of `loaders._indices_for_difficulty`: the metadata index and the
DGP info are the two already-indexed dictionaries (association lists). -/
def _indices_for_difficulty (difficulty : Option String)
    (meta : List (Int × SimRecord)) (dgp_info : List (Int × DgpRecord)) :
    Except PyExn (List Int) :=
  match _difficulty_to_tiers difficulty with
  | .error e => .error e
  | .ok none => .ok ((meta.map Prod.fst).insertionSort (· ≤ ·))
  | .ok (some tiers) =>
    let allowed_dgps :=
      (dgp_info.filter (fun p =>
        match p.2.difficulty_tier with
        | some t => decide (t ∈ tiers)
        | none => false)).map Prod.fst
    .ok (((meta.filter (fun p =>
      match p.2.dgp with
      | some g => decide (g ∈ allowed_dgps)
      | none => false)).map Prod.fst).insertionSort (· ≤ ·))

/-- Model of the simulation store used by `load_simulations`: maps a full
object key to a frame or to the exception that loading it raises. -/
def SimStore := String → Except PyExn Frame

/-- Embedding of `loaders.load_simulations`: resolves each index's filename
through the metadata index when present, else the fixed-width convention, and
loads each key; any single failure propagates. -/
def load_simulations (store : SimStore) (indices : List Int)
    (pfx : String) (meta : List (Int × SimRecord)) :
    Except PyExn (List (Int × Frame)) :=
  match indices with
  | [] => .ok []
  | idx :: rest =>
    let filename :=
      match meta.lookup idx with
      | some r => r.filename.getD ("sim_" ++ pad4 idx ++ ".parquet")
      | none => "sim_" ++ pad4 idx ++ ".parquet"
    match store (pfx ++ "/" ++ filename) with
    | .error e => .error e
    | .ok f =>
      match load_simulations store rest pfx meta with
      | .error e => .error e
      | .ok out => .ok ((idx, f) :: out)

/-- Embedding of `loaders.load_random_simulations`. The seeded generator
`numpy.random.default_rng(seed).choice(eligible, size=n, replace=False)` is an
external library call; it is modelled by the explicit parameter `sample`, a
pure function of the seed (theorems about this definition hypothesize the
library's documented contract: a draw of `n` distinct elements of the
population). -/
def load_random_simulations
    (sample : Option Int → List Int → Nat → List Int)
    (store : SimStore) (n : Int)
    (difficulty : Option String) (pfx : String) (seed : Option Int)
    (meta : List (Int × SimRecord)) (dgp_info : List (Int × DgpRecord)) :
    Except PyExn (List (Int × Frame)) :=
  if n ≤ 0 then
    .error (.valueError "n must be a positive integer.")
  else
    match _indices_for_difficulty difficulty meta dgp_info with
    | .error e => .error e
    | .ok eligible =>
      if (eligible.length : Int) < n then
        .error (.valueError
          s!"Requested n={n}, but only {eligible.length} simulations available.")
      else
        let sampled := (sample seed eligible n.toNat).insertionSort (· ≤ ·)
        load_simulations store sampled pfx meta

/-!
Embedding of `backend.py`: connection lifecycle, write-permission guard,
upload and delete operations. The module-level globals `_S3`/`_BUCKET`,
`_ACTIVE_ENDPOINT` and `_READ_ONLY` become the explicit `BackendState`; the
S3 service and the local filesystem become the explicit `Remote` parameter.
-/

/-- Established connection: the globals `_S3`/`_BUCKET`/`_ACTIVE_ENDPOINT`
set by a successful `connect_s3`. -/
structure Session where
  bucket : String
  endpoint : String
deriving DecidableEq, Repr

/-- Module-level mutable state of `backend.py`. -/
structure BackendState where
  session : Option Session := none
  read_only : Bool := true
deriving DecidableEq, Repr

/-- Execution environment credentials (`UHH_S3_ACCESS`, `UHH_S3_SECRET`);
`none` models an unset variable. -/
structure Env where
  access : Option String := none
  secret : Option String := none

/-- Outcome of the liveness probe `_BUCKET.load()`. -/
inductive ProbeResult where
  | ok
  | clientError (code : String) (msg : String)
  | otherError (msg : String)
deriving DecidableEq, Repr

/-- Model of the S3 service as seen by `backend.py`: resource creation,
liveness probe, per-key upload and delete outcomes (`none` = success,
`some e` = the exception raised), and listing under a key namespace. -/
structure Remote where
  resourceError : Option String := none
  probe : ProbeResult := .ok
  uploadError : String → Option PyExn := fun _ => none
  deleteError : String → Option PyExn := fun _ => none
  listKeys : String → Except PyExn (List String) := fun _ => .ok []

/-- Python truthiness of `os.environ.get(...)`: falsy when unset or empty. -/
def falsy : Option String → Bool
  | none => true
  | some s => s.data.isEmpty

/-- Constant `ENDPOINTS` of `connect_s3`. -/
def ENDPOINTS : List (String × String) :=
  [("primary", "https://s3-uhh.lzs.uni-hamburg.de:443"),
   ("site-1", "https://s3-uhh-s1.lzs.uni-hamburg.de:443"),
   ("site-2", "https://s3-uhh-s2.lzs.uni-hamburg.de:443"),
   ("site-3", "https://s3-uhh-s3.lzs.uni-hamburg.de:443")]

/-- Classification of a probe `ClientError` by its reported error code
(the final branch renders the whole exception, modelled by `msg`). -/
def classifyProbeError (code : String) (bucket_name : String) (msg : String) : String :=
  if code = "InvalidAccessKeyId" then
    "S3 connection failed: Access Key is invalid."
  else if code = "SignatureDoesNotMatch" then
    "S3 connection failed: Secret Key is invalid."
  else if code = "AccessDenied" then
    "S3 connection failed: Access denied to bucket. Check credentials and bucket permissions."
  else if code = "NoSuchBucket" then
    s!"S3 connection failed: Bucket {bucket_name} does not exist."
  else
    "S3 connection failed: " ++ msg

/-- Embedding of `backend.connect_s3`: returns the updated module state and
the connection result. Mirrors the source order: the read-only flag is set
first, then credentials are checked, then the endpoint is resolved, the
resource is created, and the bucket probe classified. -/
def connect_s3 (remote : Remote) (env : Env) (st : BackendState)
    (bucket_name : String := "cidl-test") (endpoint_key : String := "primary")
    (read_only : Bool := true) : BackendState × Except PyExn Session :=
  let st := { st with read_only := read_only }
  if falsy env.access && falsy env.secret then
    (st, .error (.runtimeError "S3 connection failed: ACCESS_KEY and SECRET_KEY are missing in environment variables."))
  else if falsy env.access then
    (st, .error (.runtimeError "S3 connection failed: ACCESS_KEY is missing in environment variables."))
  else if falsy env.secret then
    (st, .error (.runtimeError "S3 connection failed: SECRET_KEY is missing in environment variables."))
  else
    match ENDPOINTS.lookup endpoint_key with
    | none =>
      (st, .error (.valueError (s!"Invalid endpoint {endpoint_key}. Choose from " ++
        toString (ENDPOINTS.map Prod.fst) ++ ".")))
    | some ep =>
      match remote.resourceError with
      | some m => (st, .error (.runtimeError ("S3 resource creation failed: " ++ m)))
      | none =>
        let sess : Session := { bucket := bucket_name, endpoint := ep }
        let st := { st with session := some sess }
        match remote.probe with
        | .ok => (st, .ok sess)
        | .clientError code msg =>
          (st, .error (.runtimeError (classifyProbeError code bucket_name msg)))
        | .otherError msg =>
          (st, .error (.runtimeError ("S3 connection failed: Unknown error (" ++ msg ++ ")")))

/-- Embedding of `backend._ensure_connected`: auto-connect with default
arguments when no session exists. -/
def _ensure_connected (remote : Remote) (env : Env) (st : BackendState) :
    BackendState × Except PyExn Unit :=
  match st.session with
  | some _ => (st, .ok ())
  | none =>
    match connect_s3 remote env st with
    | (st2, .ok _) => (st2, .ok ())
    | (st2, .error e) => (st2, .error e)

/-- Message of the `PermissionError` raised by `_check_write_permission`. -/
def writeBlockedMsg : String :=
  "Write operation blocked. Backend is in read-only mode. Call connect_s3(read_only=False) with valid credentials."

/-- Embedding of `backend._check_write_permission`. -/
def _check_write_permission (st : BackendState) : Except PyExn Unit :=
  if st.read_only then .error (.permissionError writeBlockedMsg) else .ok ()

/-- Result triple of `upload_file`: `(file name, outcome, s3 path)` where the
outcome `none` models Python `True` and `some e` the caught exception. -/
def UploadTriple := String × Option PyExn × Option String

/-- Embedding of `backend.upload_file` for a single local file name. The third
component of the result lists the keys of the remote write attempts the call
performed (empty when the call failed before touching the store). -/
def upload_file (remote : Remote) (env : Env) (st : BackendState)
    (file_name : String) (key_pfx : String) :
    BackendState × Except PyExn UploadTriple × List String :=
  match _ensure_connected remote env st with
  | (st2, .error e) => (st2, .error e, [])
  | (st2, .ok _) =>
    match _check_write_permission st2 with
    | .error e => (st2, .error e, [])
    | .ok _ =>
      let key := key_pfx ++ "/" ++ file_name
      match remote.uploadError key with
      | none =>
        let bucket := (st2.session.map Session.bucket).getD ""
        (st2, .ok (file_name, none, some ("s3://" ++ bucket ++ "/" ++ key)), [key])
      | some e => (st2, .ok (file_name, some e, none), [key])

/-- Embedding of `backend.upload_directory`: `local_files` are the local file
names already matched by the extension globs (the local filesystem is outside
the repository). Lists existing remote keys, skips already-present ones,
uploads the rest and collects the failures. -/
def upload_directory (remote : Remote) (env : Env) (st : BackendState)
    (local_files : List String) (key_pfx : String) :
    BackendState × Except PyExn (List (String × PyExn)) × List String :=
  match _ensure_connected remote env st with
  | (st2, .error e) => (st2, .error e, [])
  | (st2, .ok _) =>
    match _check_write_permission st2 with
    | .error e => (st2, .error e, [])
    | .ok _ =>
      match remote.listKeys key_pfx with
      | .error e => (st2, .error e, [])
      | .ok existing =>
        let to_upload :=
          (local_files.insertionSort (fun a b => charsLe a.data b.data = true)).filter
            (fun f => decide (¬ (key_pfx ++ "/" ++ f) ∈ existing))
        let runs := to_upload.map (fun f => upload_file remote env st2 f key_pfx)
        let failed := runs.filterMap (fun r =>
          match r.2.1 with
          | .ok (fname, some e, _) => some (fname, e)
          | _ => none)
        (st2, .ok failed, runs.flatMap (fun r => r.2.2))

/-- Embedding of `backend.delete_object`: never raises on a failed deletion,
returning `Sum.inl true` on success and `Sum.inr e` with the caught exception
on failure. -/
def delete_object (remote : Remote) (env : Env) (st : BackendState)
    (key : String) :
    BackendState × Except PyExn (Bool ⊕ PyExn) × List String :=
  match _ensure_connected remote env st with
  | (st2, .error e) => (st2, .error e, [])
  | (st2, .ok _) =>
    match _check_write_permission st2 with
    | .error e => (st2, .error e, [])
    | .ok _ =>
      match remote.deleteError key with
      | none => (st2, .ok (.inl true), [key])
      | some e => (st2, .ok (.inr e), [key])

/-- Deletion loop of `delete_prefix`: deletes the listed keys in order,
stopping at the first failure; returns the failure (if any) and the keys whose
deletion was attempted. -/
def delete_all (remote : Remote) : List String → Option PyExn × List String
  | [] => (none, [])
  | k :: rest =>
    match remote.deleteError k with
    | some e => (some e, [k])
    | none =>
      let r := delete_all remote rest
      (r.1, k :: r.2)

/-- Embedding of `backend.delete_prefix`: lists all objects under the key
namespace, succeeds as a no-op when none match, deletes them otherwise; any
exception raised while listing or deleting is caught and returned
(`Sum.inr e`), never re-raised. -/
def delete_prefix_fn (remote : Remote) (env : Env) (st : BackendState)
    (key_pfx : String) :
    BackendState × Except PyExn (Bool ⊕ PyExn) × List String :=
  match _ensure_connected remote env st with
  | (st2, .error e) => (st2, .error e, [])
  | (st2, .ok _) =>
    match _check_write_permission st2 with
    | .error e => (st2, .error e, [])
    | .ok _ =>
      match remote.listKeys key_pfx with
      | .error e => (st2, .ok (.inr e), [])
      | .ok [] => (st2, .ok (.inl true), [])
      | .ok (k :: ks) =>
        match delete_all remote (k :: ks) with
        | (none, ws) => (st2, .ok (.inl true), ws)
        | (some e, ws) => (st2, .ok (.inr e), ws)

/-!
Shared lemmas about the list-level models of `sorted` and `set`.
-/

/-- Membership in `_normalize_indices`. -/
theorem mem_normalize_indices {l : List Int} {x : Int} :
    x ∈ _normalize_indices l ↔ x ∈ l := by
  unfold _normalize_indices
  rw [List.mem_insertionSort, List.mem_dedup]

/-- Normalized index lists are duplicate-free. -/
theorem normalize_indices_nodup (l : List Int) : (_normalize_indices l).Nodup :=
  (List.perm_insertionSort _ _).nodup_iff.mpr (List.nodup_dedup l)

/-- Normalized index lists are sorted ascending. -/
theorem normalize_indices_sorted (l : List Int) :
    (_normalize_indices l).Sorted (· ≤ ·) :=
  List.sorted_insertionSort _ _

/-- Membership in `sortedSetDiff`. -/
theorem mem_sortedSetDiff {a b : List Int} {x : Int} :
    x ∈ sortedSetDiff a b ↔ x ∈ a ∧ ¬ x ∈ b := by
  unfold sortedSetDiff
  rw [List.mem_insertionSort, List.mem_filter, List.mem_dedup]
  simp

/-- Emptiness of `sortedSetDiff`. -/
theorem sortedSetDiff_eq_nil_iff {a b : List Int} :
    sortedSetDiff a b = [] ↔ ∀ x ∈ a, x ∈ b := by
  constructor
  · intro h x hx
    by_contra hnb
    have : x ∈ sortedSetDiff a b := mem_sortedSetDiff.mpr ⟨hx, hnb⟩
    simp [h] at this
  · intro h
    rw [List.eq_nil_iff_forall_not_mem]
    intro x hx
    rcases mem_sortedSetDiff.mp hx with ⟨hxa, hxb⟩
    exact hxb (h x hxa)

/-!
Characterization of the `load_truths` loop.
-/

/-- Analysis of a successful `_handle_missing_file` call: the policy was
`ignore` (warnings unchanged) or `warn` (one warning appended). -/
theorem handle_missing_file_ok {idx : Int} {key om : String} {warns w : List String}
    (h : _handle_missing_file idx key om warns = .ok w) :
    (om = "ignore" ∧ w = warns) ∨ (om = "warn" ∧ w = warns ++ [missingMsg idx key]) := by
  unfold _handle_missing_file at h
  by_cases hmem : om ∈ ["warn", "error", "ignore"]
  · simp only [hmem, not_true_eq_false, if_false] at h
    by_cases hig : om = "ignore"
    · simp only [hig, if_true] at h
      exact Or.inl ⟨hig, (Except.ok.injEq _ _).mp h.symm⟩
    · by_cases herr : om = "error"
      · simp [hig, herr] at h
      · simp only [hig, herr, if_false] at h
        have hw : om = "warn" := by
          simp only [List.mem_cons, List.not_mem_nil, or_false] at hmem
          rcases hmem with h1 | h1 | h1
          · exact h1
          · exact absurd h1 herr
          · exact absurd h1 hig
        exact Or.inr ⟨hw, ((Except.ok.injEq _ _).mp h).symm⟩
  · simp [hmem] at h

/-- Full characterization of a successful run of the `load_truths` loop: the
loaded mapping collects exactly the successfully fetched indices in order, the
missing list collects exactly the not-found-classified indices in order, the
warnings record one message per missing index under `warn` and nothing under
`ignore`, and every processed index either loaded or was not-found-classified
(any other outcome would have aborted the loop). -/
theorem loadTruthsGo_ok_spec (store : TruthStore) (pfx om : String) :
    ∀ (rest : List Int) (truth : List (Int × Frame)) (missing : List Int)
      (warns : List String) (t : List (Int × Frame)) (m : List Int) (w : List String),
    loadTruthsGo store pfx om rest truth missing warns = .ok (t, m, w) →
    t = truth ++ rest.filterMap (fun i =>
        match store (_truth_key i pfx) with
        | .ok f => some (i, f)
        | _ => none) ∧
    m = missing ++ rest.filter (fun i => missingClassified (store (_truth_key i pfx))) ∧
    (om = "warn" → w = warns ++
        (rest.filter (fun i => missingClassified (store (_truth_key i pfx)))).map
          (fun i => missingMsg i (_truth_key i pfx))) ∧
    (om = "ignore" → w = warns) ∧
    (∀ i ∈ rest, (∃ f, store (_truth_key i pfx) = .ok f) ∨
        missingClassified (store (_truth_key i pfx)) = true) := by
  intro rest
  induction rest with
  | nil =>
    intro truth missing warns t m w h
    simp only [loadTruthsGo, Except.ok.injEq, Prod.mk.injEq] at h
    obtain ⟨h1, h2, h3⟩ := h
    simp [h1, h2, h3]
  | cons i rest ih =>
    intro truth missing warns t m w h
    rw [loadTruthsGo] at h
    cases hst : store (_truth_key i pfx) with
    | ok f =>
      rw [hst] at h
      obtain ⟨h1, h2, h3, h4, h5⟩ := ih _ _ _ _ _ _ h
      refine ⟨?_, ?_, ?_, h4, ?_⟩
      · simp [h1, hst]
      · simp [h2, hst, missingClassified]
      · intro hw
        simp [h3 hw, hst, missingClassified]
      · intro j hj
        rcases List.mem_cons.mp hj with hj | hj
        · subst hj; exact Or.inl ⟨f, hst⟩
        · exact h5 j hj
    | clientError code msg =>
      rw [hst] at h
      by_cases hmiss : _is_missing_s3_object_error code msg
      · simp only [hmiss, if_true] at h
        cases hh : _handle_missing_file i (_truth_key i pfx) om warns with
        | error e => rw [hh] at h; cases h
        | ok w' =>
          rw [hh] at h
          obtain ⟨h1, h2, h3, h4, h5⟩ := ih _ _ _ _ _ _ h
          have hmc : missingClassified (store (_truth_key i pfx)) = true := by
            rw [hst]; exact hmiss
          refine ⟨?_, ?_, ?_, ?_, ?_⟩
          · simp [h1, hst]
          · simp [h2, hst, missingClassified, hmiss]
          · intro hw
            rcases handle_missing_file_ok hh with ⟨hig, _⟩ | ⟨_, hw'⟩
            · rw [hig] at hw; exact absurd hw (by decide)
            · simp [h3 hw, hw', hst, missingClassified, hmiss]
          · intro hig
            rcases handle_missing_file_ok hh with ⟨_, hw'⟩ | ⟨hwarn, _⟩
            · rw [h4 hig, hw']
            · rw [hwarn] at hig; exact absurd hig (by decide)
          · intro j hj
            rcases List.mem_cons.mp hj with hj | hj
            · subst hj; exact Or.inr hmc
            · exact h5 j hj
      · simp only [hmiss, if_false] at h
        cases h
    | fileNotFound =>
      rw [hst] at h
      cases hh : _handle_missing_file i (_truth_key i pfx) om warns with
      | error e => rw [hh] at h; cases h
      | ok w' =>
        rw [hh] at h
        obtain ⟨h1, h2, h3, h4, h5⟩ := ih _ _ _ _ _ _ h
        have hmc : missingClassified (store (_truth_key i pfx)) = true := by
          rw [hst]; rfl
        refine ⟨?_, ?_, ?_, ?_, ?_⟩
        · simp [h1, hst]
        · simp [h2, hst, missingClassified]
        · intro hw
          rcases handle_missing_file_ok hh with ⟨hig, _⟩ | ⟨_, hw'⟩
          · rw [hig] at hw; exact absurd hw (by decide)
          · simp [h3 hw, hw', hst, missingClassified]
        · intro hig
          rcases handle_missing_file_ok hh with ⟨_, hw'⟩ | ⟨hwarn, _⟩
          · rw [h4 hig, hw']
          · rw [hwarn] at hig; exact absurd hig (by decide)
        · intro j hj
          rcases List.mem_cons.mp hj with hj | hj
          · subst hj; exact Or.inr hmc
          · exact h5 j hj
    | otherError =>
      rw [hst] at h
      cases h

/-- Keys of the loaded truth mapping are the successfully fetched indices. -/
theorem keys_of_okFilterMap (store : TruthStore) (pfx : String) :
    ∀ l : List Int,
    ((l.filterMap (fun i =>
        match store (_truth_key i pfx) with
        | .ok f => some (i, f)
        | _ => none)).map Prod.fst)
    = l.filter (fun i =>
        match store (_truth_key i pfx) with
        | .ok _ => true
        | _ => false) := by
  intro l
  induction l with
  | nil => rfl
  | cons i rest ih =>
    cases hst : store (_truth_key i pfx) <;> simp [hst, ih]

/-- Field-level characterization of a successful `load_truths` call. -/
theorem load_truths_ok_spec {store : TruthStore} {indices : List Int}
    {pfx om : String} {b : TruthBundle}
    (h : load_truths store indices pfx om = .ok b) :
    b.simulation_indices = _normalize_indices indices ∧
    b.truth_indices_requested = _normalize_indices indices ∧
    b.truth = (_normalize_indices indices).filterMap (fun i =>
        match store (_truth_key i pfx) with
        | .ok f => some (i, f)
        | _ => none) ∧
    b.missing_truth_files = ((_normalize_indices indices).filter
        (fun i => missingClassified (store (_truth_key i pfx)))).insertionSort (· ≤ ·) ∧
    b.missing_for_simulations =
      sortedSetDiff (_normalize_indices indices)
        ((b.truth.map Prod.fst).insertionSort (· ≤ ·)) ∧
    b.extra_truth = [] ∧
    (om = "warn" → b.warnings =
        ((_normalize_indices indices).filter
          (fun i => missingClassified (store (_truth_key i pfx)))).map
          (fun i => missingMsg i (_truth_key i pfx))) ∧
    (om = "ignore" → b.warnings = []) ∧
    (∀ i ∈ _normalize_indices indices,
      (∃ f, store (_truth_key i pfx) = .ok f) ∨
      missingClassified (store (_truth_key i pfx)) = true) := by
  simp only [load_truths] at h
  cases hgo : loadTruthsGo store pfx om (_normalize_indices indices) [] [] [] with
  | error e => rw [hgo] at h; cases h
  | ok res =>
    obtain ⟨t, m, w⟩ := res
    rw [hgo] at h
    obtain ⟨h1, h2, h3, h4, h5⟩ := loadTruthsGo_ok_spec store pfx om _ _ _ _ _ _ _ hgo
    simp only [List.nil_append] at h1 h2 h3 h4
    cases h
    refine ⟨rfl, rfl, h1, by rw [h2], rfl, rfl, ?_, ?_, h5⟩
    · intro hw; exact h3 hw
    · intro hig; exact h4 hig

/-- Truth index list requested by `truth_for_simulations`: the normalized
explicit override when supplied, else the normalized simulation keys. -/
def requestedOf (simKeys : List Int) (ti : Option (List Int)) : List Int :=
  match ti with
  | none => _normalize_indices simKeys
  | some t => _normalize_indices t

/-- Field-level characterization of a successful `truth_for_simulations`
call, in terms of the inner `load_truths` bundle. -/
theorem truth_for_simulations_ok_spec {store : TruthStore} {simKeys : List Int}
    {ti : Option (List Int)} {pfx om omm : String} {prompt canPrompt : Bool}
    {answer : String} {b : TruthBundle}
    (h : truth_for_simulations store simKeys ti pfx om omm prompt canPrompt answer = .ok b) :
    ∃ lb, load_truths store (requestedOf simKeys ti) pfx om = .ok lb ∧
      b.simulation_indices = _normalize_indices simKeys ∧
      b.truth_indices_requested = requestedOf simKeys ti ∧
      b.truth = lb.truth ∧
      b.missing_truth_files = lb.missing_truth_files ∧
      b.missing_for_simulations =
        sortedSetDiff (_normalize_indices simKeys) lb.truth_indices_loaded ∧
      b.extra_truth =
        sortedSetDiff lb.truth_indices_loaded (_normalize_indices simKeys) := by
  simp only [truth_for_simulations] at h
  cases ti with
  | none =>
    simp only [requestedOf]
    cases hlt : load_truths store (_normalize_indices simKeys) pfx om with
    | error e => simp only [hlt] at h; cases h
    | ok lb =>
      simp only [hlt, Option.isSome_none, Bool.false_eq_true, false_and, if_false] at h
      cases h
      exact ⟨lb, rfl, rfl, rfl, rfl, rfl, rfl, rfl⟩
  | some t =>
    simp only [requestedOf]
    cases hlt : load_truths store (_normalize_indices t) pfx om with
    | error e => simp only [hlt] at h; cases h
    | ok lb =>
      simp only [hlt, Option.isSome_some, true_and] at h
      by_cases hcond : sortedSetDiff (_normalize_indices simKeys) lb.truth_indices_loaded ≠ [] ∨
          sortedSetDiff lb.truth_indices_loaded (_normalize_indices simKeys) ≠ []
      · rw [if_pos hcond] at h
        cases hm : _handle_mismatch
            (_format_mismatch_message (_normalize_indices simKeys) lb.truth_indices_loaded
              (sortedSetDiff (_normalize_indices simKeys) lb.truth_indices_loaded)
              (sortedSetDiff lb.truth_indices_loaded (_normalize_indices simKeys))
              lb.missing_truth_files)
            omm prompt canPrompt answer lb.warnings with
        | error e => simp only [hm] at h; cases h
        | ok w =>
          simp only [hm] at h
          cases h
          exact ⟨lb, rfl, rfl, rfl, rfl, rfl, rfl, rfl⟩
      · rw [if_neg hcond] at h
        cases h
        exact ⟨lb, rfl, rfl, rfl, rfl, rfl, rfl, rfl⟩

/-- Validity of `is_full_match` for any bundle value. -/
theorem is_full_match_iff (b : TruthBundle) :
    b.is_full_match = true ↔ (b.missing_for_simulations = [] ∧ b.extra_truth = []) := by
  simp [TruthBundle.is_full_match, Bool.and_eq_true, List.isEmpty_iff]

/-- Keys of the truth mapping of a successful `load_truths` bundle all come
from the normalized requested indices. -/
theorem load_truths_keys_subset {store : TruthStore} {indices : List Int}
    {pfx om : String} {b : TruthBundle}
    (h : load_truths store indices pfx om = .ok b) :
    ∀ i ∈ b.truth.map Prod.fst, i ∈ _normalize_indices indices := by
  obtain ⟨_, _, h3, _⟩ := load_truths_ok_spec h
  intro i hi
  rw [h3, keys_of_okFilterMap] at hi
  exact List.mem_of_mem_filter hi

/-- C1: every `TruthBundle` returned by `load_truths` or
`truth_for_simulations` satisfies the bundle invariants:
`missing_for_simulations` is the set difference of the simulation indices and
the loaded truth keys, `extra_truth` is the reverse set difference,
`is_full_match` holds exactly when both are empty, and the loaded truth
indices are a subset of the requested truth indices. -/
theorem c1_truth_bundle_invariants (store : TruthStore) (b : TruthBundle)
    (h : (∃ indices pfx om, load_truths store indices pfx om = .ok b) ∨
         (∃ simKeys ti pfx om omm prompt canPrompt answer,
            truth_for_simulations store simKeys ti pfx om omm prompt canPrompt answer = .ok b)) :
    (∀ i, i ∈ b.missing_for_simulations ↔
        (i ∈ b.simulation_indices ∧ ¬ i ∈ b.truth.map Prod.fst)) ∧
    (∀ i, i ∈ b.extra_truth ↔
        (i ∈ b.truth.map Prod.fst ∧ ¬ i ∈ b.simulation_indices)) ∧
    (b.is_full_match = true ↔
        (b.missing_for_simulations = [] ∧ b.extra_truth = [])) ∧
    (∀ i ∈ b.truth_indices_loaded, i ∈ b.truth_indices_requested) := by
  rcases h with ⟨indices, pfx, om, h⟩ | ⟨simKeys, ti, pfx, om, omm, prompt, canPrompt, answer, h⟩
  · obtain ⟨h1, h2, h3, h4, h5, h6, _, _, _⟩ := load_truths_ok_spec h
    have hkeys := load_truths_keys_subset h
    refine ⟨?_, ?_, is_full_match_iff b, ?_⟩
    · intro i
      rw [h5, h1, mem_sortedSetDiff, List.mem_insertionSort]
    · intro i
      rw [h6, h1]
      simp only [List.not_mem_nil, false_iff]
      rintro ⟨hik, hns⟩
      exact hns (hkeys i hik)
    · intro i hi
      rw [h2]
      rw [TruthBundle.truth_indices_loaded, List.mem_insertionSort] at hi
      exact hkeys i hi
  · obtain ⟨lb, hlt, h1, h2, h3, h4, h5, h6⟩ := truth_for_simulations_ok_spec h
    have hkeys := load_truths_keys_subset hlt
    refine ⟨?_, ?_, is_full_match_iff b, ?_⟩
    · intro i
      rw [h5, h1, mem_sortedSetDiff, TruthBundle.truth_indices_loaded,
        List.mem_insertionSort, h3]
    · intro i
      rw [h6, h1, mem_sortedSetDiff, TruthBundle.truth_indices_loaded,
        List.mem_insertionSort, h3]
    · intro i hi
      rw [TruthBundle.truth_indices_loaded, List.mem_insertionSort, h3] at hi
      rw [h2, ← mem_normalize_indices]
      exact hkeys i hi

/-- Concrete truth store for the C1 witness: index 2 is missing, every other
key loads. -/
def c1Store : TruthStore := fun k =>
  if k = "acic22/truth/truth_0002.parquet" then .clientError "404" "x" else .ok ⟨0⟩

/-- Concrete bundle produced by `load_truths c1Store [1, 2]`. -/
def c1Bundle : TruthBundle :=
  { simulation_indices := [1, 2]
    truth_indices_requested := [1, 2]
    truth := [(1, ⟨0⟩)]
    missing_truth_files := [2]
    missing_for_simulations := [2]
    extra_truth := []
    warnings := [missingMsg 2 "acic22/truth/truth_0002.parquet"] }

/-- Witness for C1 at a concrete store and bundle. -/
theorem c1_truth_bundle_invariants_witness :
    (∀ i, i ∈ c1Bundle.missing_for_simulations ↔
        (i ∈ c1Bundle.simulation_indices ∧ ¬ i ∈ c1Bundle.truth.map Prod.fst)) ∧
    (∀ i, i ∈ c1Bundle.extra_truth ↔
        (i ∈ c1Bundle.truth.map Prod.fst ∧ ¬ i ∈ c1Bundle.simulation_indices)) ∧
    (c1Bundle.is_full_match = true ↔
        (c1Bundle.missing_for_simulations = [] ∧ c1Bundle.extra_truth = [])) ∧
    (∀ i ∈ c1Bundle.truth_indices_loaded, i ∈ c1Bundle.truth_indices_requested) :=
  c1_truth_bundle_invariants c1Store c1Bundle
    (Or.inl ⟨[1, 2], "acic22/truth", "warn", by decide⟩)

/-- The `error` policy of `_handle_missing_file` raises `FileNotFoundError`
with the missing-file message. -/
theorem handle_missing_file_error (idx : Int) (key : String) (warns : List String) :
    _handle_missing_file idx key "error" warns =
      .error (.fileNotFound (missingMsg idx key)) := by
  simp [_handle_missing_file]

/-- Under the `error` policy a successful run of the `load_truths` loop
encountered no missing file at all. -/
theorem loadTruthsGo_error_policy_no_missing (store : TruthStore) (pfx : String) :
    ∀ (rest : List Int) (truth : List (Int × Frame)) (missing : List Int)
      (warns : List String) (t : List (Int × Frame)) (m : List Int) (w : List String),
    loadTruthsGo store pfx "error" rest truth missing warns = .ok (t, m, w) →
    m = missing ∧ w = warns := by
  intro rest
  induction rest with
  | nil =>
    intro truth missing warns t m w h
    simp only [loadTruthsGo, Except.ok.injEq, Prod.mk.injEq] at h
    exact ⟨h.2.1.symm, h.2.2.symm⟩
  | cons i rest ih =>
    intro truth missing warns t m w h
    rw [loadTruthsGo] at h
    cases hst : store (_truth_key i pfx) with
    | ok f =>
      rw [hst] at h
      exact ih _ _ _ _ _ _ h
    | clientError code msg =>
      rw [hst] at h
      by_cases hmiss : _is_missing_s3_object_error code msg
      · simp only [hmiss, if_true, handle_missing_file_error] at h
        cases h
      · simp only [hmiss, if_false] at h
        cases h
    | fileNotFound =>
      rw [hst, handle_missing_file_error] at h
      cases h
    | otherError =>
      rw [hst] at h
      cases h

/-- Propagation behavior of the `load_truths` loop at the first index whose
fetch neither succeeds nor is classified missing-and-tolerated: a
non-missing `ClientError` and any other exception propagate for every policy,
and under the `error` policy a missing-classified index raises
`FileNotFoundError` immediately. -/
theorem loadTruthsGo_propagate (store : TruthStore) (pfx om : String) :
    ∀ (pre : List Int) (i : Int) (post : List Int) (truth : List (Int × Frame))
      (missing : List Int) (warns : List String),
    (∀ j ∈ pre, ∃ f, store (_truth_key j pfx) = .ok f) →
    ((∀ code msg, store (_truth_key i pfx) = .clientError code msg →
        _is_missing_s3_object_error code msg = false →
        loadTruthsGo store pfx om (pre ++ i :: post) truth missing warns =
          .error (.clientError code msg)) ∧
     (store (_truth_key i pfx) = .otherError →
        loadTruthsGo store pfx om (pre ++ i :: post) truth missing warns =
          .error .otherError) ∧
     (om = "error" → missingClassified (store (_truth_key i pfx)) = true →
        loadTruthsGo store pfx om (pre ++ i :: post) truth missing warns =
          .error (.fileNotFound (missingMsg i (_truth_key i pfx))))) := by
  intro pre
  induction pre with
  | nil =>
    intro i post truth missing warns _
    refine ⟨?_, ?_, ?_⟩
    · intro code msg hst hmiss
      rw [List.nil_append, loadTruthsGo]
      simp [hst, hmiss]
    · intro hst
      rw [List.nil_append, loadTruthsGo]
      simp [hst]
    · intro herr hmc
      subst herr
      rw [List.nil_append, loadTruthsGo]
      cases hst : store (_truth_key i pfx) with
      | ok f => rw [hst] at hmc; simp [missingClassified] at hmc
      | clientError code msg =>
        rw [hst] at hmc
        simp only [missingClassified] at hmc
        simp [hst, hmc, handle_missing_file_error]
      | fileNotFound =>
        simp [hst, handle_missing_file_error]
      | otherError => rw [hst] at hmc; simp [missingClassified] at hmc
    | cons j pre ih =>
    intro i post truth missing warns hpre
    obtain ⟨f, hjf⟩ := hpre j (List.mem_cons_self _ _)
    have hrest : ∀ j2 ∈ pre, ∃ f2, store (_truth_key j2 pfx) = .ok f2 :=
      fun j2 hj2 => hpre j2 (List.mem_cons_of_mem _ hj2)
    obtain ⟨ih1, ih2, ih3⟩ := ih i post (truth ++ [(j, f)]) missing warns hrest
    refine ⟨?_, ?_, ?_⟩
    · intro code msg hst hmiss
      rw [List.cons_append, loadTruthsGo]
      simp only [hjf]
      exact ih1 code msg hst hmiss
    · intro hst
      rw [List.cons_append, loadTruthsGo]
      simp only [hjf]
      exact ih2 hst
    · intro herr hmc
      rw [List.cons_append, loadTruthsGo]
      simp only [hjf]
      exact ih3 herr hmc

/-- C2: in `load_truths`, for every requested index a "not found" outcome from
the remote store (classified by `_is_missing_s3_object_error`) is the only
transport failure treated as a missing truth file and subjected to the
`on_missing` policy — `warn` records the index and emits one warning per
missing index, `error` raises `FileNotFoundError` immediately at the first
missing index, `ignore` skips the index silently — while any other transport
error propagates to the caller for every policy. -/
theorem c2_load_truths_missing_policy (store : TruthStore) (indices : List Int)
    (pfx om : String) :
    (∀ b, load_truths store indices pfx om = .ok b →
        ∀ i ∈ _normalize_indices indices,
          ((∃ f, store (_truth_key i pfx) = .ok f ∧ (i, f) ∈ b.truth) ∨
           (missingClassified (store (_truth_key i pfx)) = true ∧
             i ∈ b.missing_truth_files ∧ ¬ i ∈ b.truth.map Prod.fst))) ∧
    (∀ b, load_truths store indices pfx om = .ok b →
        ∀ i, i ∈ b.missing_truth_files ↔
          (i ∈ _normalize_indices indices ∧
           missingClassified (store (_truth_key i pfx)) = true)) ∧
    (om = "warn" → ∀ b, load_truths store indices pfx om = .ok b →
        b.warnings = b.missing_truth_files.map (fun i => missingMsg i (_truth_key i pfx))) ∧
    (om = "error" → ∀ b, load_truths store indices pfx om = .ok b →
        b.missing_truth_files = [] ∧ b.warnings = []) ∧
    (om = "ignore" → ∀ b, load_truths store indices pfx om = .ok b →
        b.warnings = []) ∧
    (∀ pre i post, _normalize_indices indices = pre ++ i :: post →
      (∀ j ∈ pre, ∃ f, store (_truth_key j pfx) = .ok f) →
      ((∀ code msg, store (_truth_key i pfx) = .clientError code msg →
          _is_missing_s3_object_error code msg = false →
          load_truths store indices pfx om = .error (.clientError code msg)) ∧
       (store (_truth_key i pfx) = .otherError →
          load_truths store indices pfx om = .error .otherError) ∧
       (om = "error" → missingClassified (store (_truth_key i pfx)) = true →
          load_truths store indices pfx om =
            .error (.fileNotFound (missingMsg i (_truth_key i pfx)))))) := by
  refine ⟨?_, ?_, ?_, ?_, ?_, ?_⟩
  · intro b hb i hi
    obtain ⟨h1, h2, h3, h4, h5, h6, h7, h8, h9⟩ := load_truths_ok_spec hb
    rcases h9 i hi with ⟨f, hst⟩ | hmc
    · refine Or.inl ⟨f, hst, ?_⟩
      rw [h3]
      exact List.mem_filterMap.mpr ⟨i, hi, by rw [hst]⟩
    · refine Or.inr ⟨hmc, ?_, ?_⟩
      · rw [h4, List.mem_insertionSort, List.mem_filter]
        exact ⟨hi, hmc⟩
      · rw [h3, keys_of_okFilterMap]
        intro hmem
        have hok := (List.mem_filter.mp hmem).2
        cases hst : store (_truth_key i pfx) with
        | ok f => rw [hst] at hmc; simp [missingClassified] at hmc
        | clientError c m2 => rw [hst] at hok; simp at hok
        | fileNotFound => rw [hst] at hok; simp at hok
        | otherError => rw [hst] at hok; simp at hok
  · intro b hb i
    obtain ⟨_, _, _, h4, _⟩ := load_truths_ok_spec hb
    rw [h4, List.mem_insertionSort, List.mem_filter]
  · intro hw b hb
    obtain ⟨_, _, _, h4, _, _, h7, _, _⟩ := load_truths_ok_spec hb
    have hs : ((_normalize_indices indices).filter
        (fun i => missingClassified (store (_truth_key i pfx)))).Sorted (· ≤ ·) :=
      (normalize_indices_sorted indices).filter _
    rw [h7 hw, h4, List.Sorted.insertionSort_eq hs]
  · intro herr b hb
    subst herr
    simp only [load_truths] at hb
    cases hgo : loadTruthsGo store pfx "error" (_normalize_indices indices) [] [] [] with
    | error e => rw [hgo] at hb; cases hb
    | ok res =>
      obtain ⟨t, m, w⟩ := res
      rw [hgo] at hb
      obtain ⟨hm, hw⟩ := loadTruthsGo_error_policy_no_missing store pfx _ _ _ _ _ _ _ hgo
      cases hb
      exact ⟨by rw [hm]; rfl, hw⟩
  · intro hig b hb
    exact (load_truths_ok_spec hb).2.2.2.2.2.2.2.1 hig
  · intro pre i post hsplit hpre
    obtain ⟨p1, p2, p3⟩ := loadTruthsGo_propagate store pfx om pre i post [] [] [] hpre
    refine ⟨?_, ?_, ?_⟩
    · intro code msg hst hmiss
      simp only [load_truths, hsplit, p1 code msg hst hmiss]
    · intro hst
      simp only [load_truths, hsplit, p2 hst]
    · intro herr hmc
      simp only [load_truths, hsplit, p3 herr hmc]

/-- Concrete store for the C2 witness, propagation part: index 2 fails with a
non-missing `ClientError`. -/
def c2PropStore : TruthStore := fun k =>
  if k = _truth_key 2 "acic22/truth" then .clientError "500" "boom" else .ok ⟨0⟩

/-- Concrete store for the C2 witness, warn part: index 2 is missing. -/
def c2WarnStore : TruthStore := fun k =>
  if k = _truth_key 2 "acic22/truth" then .fileNotFound else .ok ⟨0⟩

/-- Concrete bundle produced by `load_truths c2WarnStore [1, 2]` under
`warn`. -/
def c2WarnBundle : TruthBundle :=
  { simulation_indices := [1, 2]
    truth_indices_requested := [1, 2]
    truth := [(1, ⟨0⟩)]
    missing_truth_files := [2]
    missing_for_simulations := [2]
    extra_truth := []
    warnings := [missingMsg 2 (_truth_key 2 "acic22/truth")] }

/-- Witness for C2: a non-missing transport error at index 2 propagates, and
under `warn` the warnings list records exactly the missing indices. -/
theorem c2_load_truths_missing_policy_witness :
    load_truths c2PropStore [1, 2] "acic22/truth" "warn" =
      .error (.clientError "500" "boom") ∧
    c2WarnBundle.warnings = c2WarnBundle.missing_truth_files.map
      (fun i => missingMsg i (_truth_key i "acic22/truth")) := by
  constructor
  · exact ((c2_load_truths_missing_policy c2PropStore [1, 2] "acic22/truth" "warn").2.2.2.2.2
      [1] 2 [] (by decide)
      (fun j hj => ⟨⟨0⟩, by
        have hj1 : j = 1 := by simpa using hj
        subst hj1
        decide⟩)).1 "500" "boom" (by decide) (by decide)
  · exact (c2_load_truths_missing_policy c2WarnStore [1, 2] "acic22/truth" "warn").2.2.1
      rfl c2WarnBundle (by decide)

/-- The `error` mismatch policy raises `ValueError` with the diagnostic. -/
theorem handle_mismatch_error (msg : String) (prompt canPrompt : Bool)
    (answer : String) (w : List String) :
    _handle_mismatch msg "error" prompt canPrompt answer w = .error (.valueError msg) := by
  simp [_handle_mismatch]

/-- The `warn` mismatch policy without prompting appends the diagnostic. -/
theorem handle_mismatch_warn_noprompt (msg : String) (canPrompt : Bool)
    (answer : String) (w : List String) :
    _handle_mismatch msg "warn" false canPrompt answer w = .ok (w ++ [msg]) := by
  simp [_handle_mismatch]

/-- The `ignore` mismatch policy does nothing. -/
theorem handle_mismatch_ignore (msg : String) (prompt canPrompt : Bool)
    (answer : String) (w : List String) :
    _handle_mismatch msg "ignore" prompt canPrompt answer w = .ok w := by
  simp [_handle_mismatch]

/-- Evaluation of `truth_for_simulations` in automatic-matching mode
(`truth_indices` omitted): the mismatch policy is never consulted. -/
theorem truth_for_simulations_build_none {store : TruthStore} {simKeys : List Int}
    {pfx om omm : String} {prompt canPrompt : Bool} {answer : String} {lb : TruthBundle}
    (hlb : load_truths store (_normalize_indices simKeys) pfx om = .ok lb) :
    truth_for_simulations store simKeys none pfx om omm prompt canPrompt answer =
      .ok { simulation_indices := _normalize_indices simKeys
            truth_indices_requested := _normalize_indices simKeys
            truth := lb.truth
            missing_truth_files := lb.missing_truth_files
            missing_for_simulations :=
              sortedSetDiff (_normalize_indices simKeys) lb.truth_indices_loaded
            extra_truth :=
              sortedSetDiff lb.truth_indices_loaded (_normalize_indices simKeys)
            warnings := lb.warnings } := by
  simp only [truth_for_simulations, hlb, Option.isSome_none, Bool.false_eq_true,
    false_and, if_false]

/-- Evaluation of `truth_for_simulations` with an explicit override whose
loaded and simulation index sets coincide: the mismatch policy is not
consulted. -/
theorem truth_for_simulations_build_match {store : TruthStore} {simKeys t : List Int}
    {pfx om omm : String} {prompt canPrompt : Bool} {answer : String} {lb : TruthBundle}
    (hlb : load_truths store (_normalize_indices t) pfx om = .ok lb)
    (hmfs : sortedSetDiff (_normalize_indices simKeys) lb.truth_indices_loaded = [])
    (hext : sortedSetDiff lb.truth_indices_loaded (_normalize_indices simKeys) = []) :
    truth_for_simulations store simKeys (some t) pfx om omm prompt canPrompt answer =
      .ok { simulation_indices := _normalize_indices simKeys
            truth_indices_requested := _normalize_indices t
            truth := lb.truth
            missing_truth_files := lb.missing_truth_files
            missing_for_simulations :=
              sortedSetDiff (_normalize_indices simKeys) lb.truth_indices_loaded
            extra_truth :=
              sortedSetDiff lb.truth_indices_loaded (_normalize_indices simKeys)
            warnings := lb.warnings } := by
  simp only [truth_for_simulations, hlb, Option.isSome_some, true_and]
  rw [if_neg (fun hc => hc.elim (fun hA => hA hmfs) (fun hB => hB hext))]

/-- Evaluation of `truth_for_simulations` with an explicit override and a
discrepancy, when the mismatch handler returns updated warnings. -/
theorem truth_for_simulations_build_mismatch {store : TruthStore} {simKeys t : List Int}
    {pfx om omm : String} {prompt canPrompt : Bool} {answer : String} {lb : TruthBundle}
    {w : List String}
    (hlb : load_truths store (_normalize_indices t) pfx om = .ok lb)
    (hne : sortedSetDiff (_normalize_indices simKeys) lb.truth_indices_loaded ≠ [] ∨
      sortedSetDiff lb.truth_indices_loaded (_normalize_indices simKeys) ≠ [])
    (hh : _handle_mismatch
        (_format_mismatch_message (_normalize_indices simKeys) lb.truth_indices_loaded
          (sortedSetDiff (_normalize_indices simKeys) lb.truth_indices_loaded)
          (sortedSetDiff lb.truth_indices_loaded (_normalize_indices simKeys))
          lb.missing_truth_files) omm prompt canPrompt answer lb.warnings = .ok w) :
    truth_for_simulations store simKeys (some t) pfx om omm prompt canPrompt answer =
      .ok { simulation_indices := _normalize_indices simKeys
            truth_indices_requested := _normalize_indices t
            truth := lb.truth
            missing_truth_files := lb.missing_truth_files
            missing_for_simulations :=
              sortedSetDiff (_normalize_indices simKeys) lb.truth_indices_loaded
            extra_truth :=
              sortedSetDiff lb.truth_indices_loaded (_normalize_indices simKeys)
            warnings := w } := by
  simp only [truth_for_simulations, hlb, Option.isSome_some, true_and]
  rw [if_pos hne, hh]

/-- Evaluation of `truth_for_simulations` with an explicit override and a
discrepancy, when the mismatch handler raises. -/
theorem truth_for_simulations_build_mismatch_error {store : TruthStore}
    {simKeys t : List Int} {pfx om omm : String} {prompt canPrompt : Bool}
    {answer : String} {lb : TruthBundle} {e : PyExn}
    (hlb : load_truths store (_normalize_indices t) pfx om = .ok lb)
    (hne : sortedSetDiff (_normalize_indices simKeys) lb.truth_indices_loaded ≠ [] ∨
      sortedSetDiff lb.truth_indices_loaded (_normalize_indices simKeys) ≠ [])
    (hh : _handle_mismatch
        (_format_mismatch_message (_normalize_indices simKeys) lb.truth_indices_loaded
          (sortedSetDiff (_normalize_indices simKeys) lb.truth_indices_loaded)
          (sortedSetDiff lb.truth_indices_loaded (_normalize_indices simKeys))
          lb.missing_truth_files) omm prompt canPrompt answer lb.warnings = .error e) :
    truth_for_simulations store simKeys (some t) pfx om omm prompt canPrompt answer =
      .error e := by
  simp only [truth_for_simulations, hlb, Option.isSome_some, true_and]
  rw [if_pos hne, hh]

/-- C3: `truth_for_simulations` applies the `on_mismatch` policy only when
`truth_indices` is explicitly supplied and the loaded truth index set differs
from the simulation key set; `warn` records and emits the diagnostic built by
`_format_mismatch_message` from both index sets, `error` raises before any
bundle is returned, `ignore` does nothing; with `truth_indices` omitted the
requested truth indices default to the simulation keys and mismatch handling
is skipped for every policy value. -/
theorem c3_truth_for_simulations_mismatch_policy (store : TruthStore)
    (simKeys : List Int) (pfx om omm : String) (prompt canPrompt : Bool)
    (answer : String) :
    (∀ lb, load_truths store (_normalize_indices simKeys) pfx om = .ok lb →
        ∃ b, truth_for_simulations store simKeys none pfx om omm prompt canPrompt answer
            = .ok b ∧
          b.truth_indices_requested = _normalize_indices simKeys ∧
          b.warnings = lb.warnings) ∧
    (∀ t lb, load_truths store (_normalize_indices t) pfx om = .ok lb →
      (sortedSetDiff (_normalize_indices simKeys) lb.truth_indices_loaded = [] ∧
       sortedSetDiff lb.truth_indices_loaded (_normalize_indices simKeys) = [] →
        ∃ b, truth_for_simulations store simKeys (some t) pfx om omm prompt canPrompt answer
            = .ok b ∧ b.warnings = lb.warnings) ∧
      (sortedSetDiff (_normalize_indices simKeys) lb.truth_indices_loaded ≠ [] ∨
       sortedSetDiff lb.truth_indices_loaded (_normalize_indices simKeys) ≠ [] →
        ((omm = "error" →
          truth_for_simulations store simKeys (some t) pfx om omm prompt canPrompt answer
            = .error (.valueError (_format_mismatch_message
                (_normalize_indices simKeys) lb.truth_indices_loaded
                (sortedSetDiff (_normalize_indices simKeys) lb.truth_indices_loaded)
                (sortedSetDiff lb.truth_indices_loaded (_normalize_indices simKeys))
                lb.missing_truth_files))) ∧
         (omm = "warn" → prompt = false →
          ∃ b, truth_for_simulations store simKeys (some t) pfx om omm prompt canPrompt answer
              = .ok b ∧
            b.warnings = lb.warnings ++ [_format_mismatch_message
                (_normalize_indices simKeys) lb.truth_indices_loaded
                (sortedSetDiff (_normalize_indices simKeys) lb.truth_indices_loaded)
                (sortedSetDiff lb.truth_indices_loaded (_normalize_indices simKeys))
                lb.missing_truth_files]) ∧
         (omm = "ignore" →
          ∃ b, truth_for_simulations store simKeys (some t) pfx om omm prompt canPrompt answer
              = .ok b ∧ b.warnings = lb.warnings)))) := by
  constructor
  · intro lb hlb
    exact ⟨_, truth_for_simulations_build_none hlb, rfl, rfl⟩
  · intro t lb hlb
    constructor
    · rintro ⟨hmfs, hext⟩
      exact ⟨_, truth_for_simulations_build_match hlb hmfs hext, rfl⟩
    · intro hne
      refine ⟨?_, ?_, ?_⟩
      · intro herr
        subst herr
        exact truth_for_simulations_build_mismatch_error hlb hne
          (handle_mismatch_error _ _ _ _ _)
      · intro hwarn hpr
        subst hwarn
        subst hpr
        exact ⟨_, truth_for_simulations_build_mismatch hlb hne
          (handle_mismatch_warn_noprompt _ _ _ _), rfl⟩
      · intro hig
        subst hig
        exact ⟨_, truth_for_simulations_build_mismatch hlb hne
          (handle_mismatch_ignore _ _ _ _ _), rfl⟩

/-- Concrete all-ok truth store for the C3 witness. -/
def c3Store : TruthStore := fun _ => .ok ⟨0⟩

/-- Concrete bundle produced by `load_truths c3Store [5, 6, 9]`. -/
def c3Lb : TruthBundle :=
  { simulation_indices := [5, 6, 9]
    truth_indices_requested := [5, 6, 9]
    truth := [(5, ⟨0⟩), (6, ⟨0⟩), (9, ⟨0⟩)]
    missing_truth_files := []
    missing_for_simulations := []
    extra_truth := []
    warnings := [] }

/-- Witness for C3 at the specified scenario: explicit truth indices
`[5, 6, 9]` against simulations `{5, 6, 7}` under the `error` policy raise
before any bundle is returned. -/
theorem c3_truth_for_simulations_mismatch_policy_witness :
    truth_for_simulations c3Store [5, 6, 7] (some [5, 6, 9]) "acic22/truth"
        "warn" "error" false false "" =
      .error (.valueError (_format_mismatch_message (_normalize_indices [5, 6, 7])
        c3Lb.truth_indices_loaded
        (sortedSetDiff (_normalize_indices [5, 6, 7]) c3Lb.truth_indices_loaded)
        (sortedSetDiff c3Lb.truth_indices_loaded (_normalize_indices [5, 6, 7]))
        c3Lb.missing_truth_files)) :=
  (((c3_truth_for_simulations_mismatch_policy c3Store [5, 6, 7] "acic22/truth"
      "warn" "error" false false "").2 [5, 6, 9] c3Lb (by decide)).2
    (by decide)).1 rfl

/-- C4: `connect_s3` fails with a distinct error per cause — a credential
error distinguishing both keys missing, the access key missing and the secret
missing; a `ValueError` for an endpoint selector outside the fixed enumerated
set; and, on liveness-probe failure, an error message classified by the
reported store error code into invalid-key, invalid-secret, access-denied,
bucket-missing or unknown-connection, the fixed messages being pairwise
distinct. -/
theorem c4_connect_s3_error_classification (remote : Remote) (env : Env)
    (st : BackendState) (bucket_name endpoint_key : String) (read_only : Bool) :
    (falsy env.access = true → falsy env.secret = true →
      (connect_s3 remote env st bucket_name endpoint_key read_only).2 =
        .error (.runtimeError "S3 connection failed: ACCESS_KEY and SECRET_KEY are missing in environment variables.")) ∧
    (falsy env.access = true → falsy env.secret = false →
      (connect_s3 remote env st bucket_name endpoint_key read_only).2 =
        .error (.runtimeError "S3 connection failed: ACCESS_KEY is missing in environment variables.")) ∧
    (falsy env.access = false → falsy env.secret = true →
      (connect_s3 remote env st bucket_name endpoint_key read_only).2 =
        .error (.runtimeError "S3 connection failed: SECRET_KEY is missing in environment variables.")) ∧
    (falsy env.access = false → falsy env.secret = false →
      ENDPOINTS.lookup endpoint_key = none →
      (connect_s3 remote env st bucket_name endpoint_key read_only).2 =
        .error (.valueError (s!"Invalid endpoint {endpoint_key}. Choose from " ++
          toString (ENDPOINTS.map Prod.fst) ++ "."))) ∧
    (∀ ep, falsy env.access = false → falsy env.secret = false →
      ENDPOINTS.lookup endpoint_key = some ep →
      remote.resourceError = none →
      ((remote.probe = .ok →
          (connect_s3 remote env st bucket_name endpoint_key read_only).2 =
            .ok { bucket := bucket_name, endpoint := ep }) ∧
       (∀ code msg, remote.probe = .clientError code msg →
          (connect_s3 remote env st bucket_name endpoint_key read_only).2 =
            .error (.runtimeError (classifyProbeError code bucket_name msg))) ∧
       (∀ msg, remote.probe = .otherError msg →
          (connect_s3 remote env st bucket_name endpoint_key read_only).2 =
            .error (.runtimeError ("S3 connection failed: Unknown error (" ++ msg ++ ")"))))) ∧
    (∀ msg,
      classifyProbeError "InvalidAccessKeyId" bucket_name msg =
        "S3 connection failed: Access Key is invalid." ∧
      classifyProbeError "SignatureDoesNotMatch" bucket_name msg =
        "S3 connection failed: Secret Key is invalid." ∧
      classifyProbeError "AccessDenied" bucket_name msg =
        "S3 connection failed: Access denied to bucket. Check credentials and bucket permissions." ∧
      classifyProbeError "NoSuchBucket" bucket_name msg =
        s!"S3 connection failed: Bucket {bucket_name} does not exist.") ∧
    (["S3 connection failed: ACCESS_KEY and SECRET_KEY are missing in environment variables.",
      "S3 connection failed: ACCESS_KEY is missing in environment variables.",
      "S3 connection failed: SECRET_KEY is missing in environment variables.",
      "S3 connection failed: Access Key is invalid.",
      "S3 connection failed: Secret Key is invalid.",
      "S3 connection failed: Access denied to bucket. Check credentials and bucket permissions."] : List String).Nodup := by
  refine ⟨?_, ?_, ?_, ?_, ?_, ?_, by decide⟩
  · intro ha hs
    simp [connect_s3, ha, hs]
  · intro ha hs
    simp [connect_s3, ha, hs]
  · intro ha hs
    simp [connect_s3, ha, hs]
  · intro ha hs hep
    simp [connect_s3, ha, hs, hep]
  · intro ep ha hs hep hres
    refine ⟨?_, ?_, ?_⟩
    · intro hpr
      simp [connect_s3, ha, hs, hep, hres, hpr]
    · intro code msg hpr
      simp [connect_s3, ha, hs, hep, hres, hpr]
    · intro msg hpr
      simp [connect_s3, ha, hs, hep, hres, hpr]
  · intro msg
    refine ⟨?_, ?_, ?_, ?_⟩ <;> simp [classifyProbeError]

set_option maxRecDepth 8000 in
/-- Witness for C4 at concrete inputs: both credentials missing, an unknown
endpoint selector, and a probe failing with `NoSuchBucket`. -/
theorem c4_connect_s3_error_classification_witness :
    (connect_s3 {} {} {} "cidl-test" "primary" true).2 =
      .error (.runtimeError "S3 connection failed: ACCESS_KEY and SECRET_KEY are missing in environment variables.") ∧
    (connect_s3 {} { access := some "a", secret := some "b" } {} "cidl-test" "bogus" true).2 =
      .error (.valueError "Invalid endpoint bogus. Choose from [primary, site-1, site-2, site-3].") ∧
    (connect_s3 { probe := .clientError "NoSuchBucket" "m" }
        { access := some "a", secret := some "b" } {} "cidl-test" "primary" true).2 =
      .error (.runtimeError "S3 connection failed: Bucket cidl-test does not exist.") := by
  refine ⟨?_, ?_, ?_⟩
  · exact (c4_connect_s3_error_classification {} {} {} "cidl-test" "primary" true).1
      (by decide) (by decide)
  · have h := (c4_connect_s3_error_classification {}
      { access := some "a", secret := some "b" } {} "cidl-test" "bogus" true).2.2.2.1
      (by decide) (by decide) (by decide)
    rw [h]
    decide
  · have h := ((c4_connect_s3_error_classification { probe := .clientError "NoSuchBucket" "m" }
      { access := some "a", secret := some "b" } {} "cidl-test" "primary" true).2.2.2.2.1
      "https://s3-uhh.lzs.uni-hamburg.de:443" (by decide) (by decide) (by decide) rfl).2.1
      "NoSuchBucket" "m" rfl
    rw [h]
    decide

/-- With an active session, `_ensure_connected` is a no-op. -/
theorem ensure_connected_of_some {remote : Remote} {env : Env} {st : BackendState}
    (h : st.session.isSome = true) :
    _ensure_connected remote env st = (st, .ok ()) := by
  obtain ⟨s, hs⟩ := Option.isSome_iff_exists.mp h
  simp [_ensure_connected, hs]

/-- C9: every mutating operation (`upload_file`, `upload_directory`,
`delete_object`, `delete_prefix`) raises `PermissionError` when the active
session is in read-only mode, before performing any remote write (the list of
attempted writes is empty); under write mode the guard passes and the
operation proceeds without a `PermissionError`. -/
theorem c9_write_guard (remote : Remote) (env : Env) (st : BackendState)
    (file_name key_pfx key : String) (local_files : List String)
    (hconn : st.session.isSome = true) :
    (st.read_only = true →
        upload_file remote env st file_name key_pfx =
          (st, .error (.permissionError writeBlockedMsg), []) ∧
        upload_directory remote env st local_files key_pfx =
          (st, .error (.permissionError writeBlockedMsg), []) ∧
        delete_object remote env st key =
          (st, .error (.permissionError writeBlockedMsg), []) ∧
        delete_prefix_fn remote env st key_pfx =
          (st, .error (.permissionError writeBlockedMsg), [])) ∧
    (st.read_only = false →
        (∃ r w, upload_file remote env st file_name key_pfx = (st, .ok r, w)) ∧
        (∀ ks, remote.listKeys key_pfx = .ok ks →
          ∃ r w, upload_directory remote env st local_files key_pfx = (st, .ok r, w)) ∧
        (∃ r w, delete_object remote env st key = (st, .ok r, w)) ∧
        (∃ r w, delete_prefix_fn remote env st key_pfx = (st, .ok r, w))) := by
  have hens : _ensure_connected remote env st = (st, .ok ()) :=
    ensure_connected_of_some hconn
  constructor
  · intro hro
    refine ⟨?_, ?_, ?_, ?_⟩ <;>
      simp [upload_file, upload_directory, delete_object, delete_prefix_fn, hens,
        _check_write_permission, hro]
  · intro hrw
    refine ⟨?_, ?_, ?_, ?_⟩
    · cases hu : remote.uploadError (key_pfx ++ "/" ++ file_name) with
      | none =>
        exact ⟨_, _, by simp [upload_file, hens, _check_write_permission, hrw, hu]; exact ⟨rfl, rfl⟩⟩
      | some e =>
        exact ⟨_, _, by simp [upload_file, hens, _check_write_permission, hrw, hu]; exact ⟨rfl, rfl⟩⟩
    · intro ks hks
      exact ⟨_, _, by simp [upload_directory, hens, _check_write_permission, hrw, hks]; exact ⟨rfl, rfl⟩⟩
    · cases hd : remote.deleteError key with
      | none =>
        exact ⟨_, _, by simp [delete_object, hens, _check_write_permission, hrw, hd]; exact ⟨rfl, rfl⟩⟩
      | some e =>
        exact ⟨_, _, by simp [delete_object, hens, _check_write_permission, hrw, hd]; exact ⟨rfl, rfl⟩⟩
    · cases hl : remote.listKeys key_pfx with
      | error e =>
        exact ⟨_, _, by simp [delete_prefix_fn, hens, _check_write_permission, hrw, hl]; exact ⟨rfl, rfl⟩⟩
      | ok ks =>
        cases ks with
        | nil =>
          exact ⟨_, _, by simp [delete_prefix_fn, hens, _check_write_permission, hrw, hl]; exact ⟨rfl, rfl⟩⟩
        | cons k rest =>
          cases hda : delete_all remote (k :: rest) with
          | mk o ws =>
            cases o with
            | none =>
              exact ⟨_, _, by
                simp [delete_prefix_fn, hens, _check_write_permission, hrw, hl, hda]; exact ⟨rfl, rfl⟩⟩
            | some e =>
              exact ⟨_, _, by
                simp [delete_prefix_fn, hens, _check_write_permission, hrw, hl, hda]; exact ⟨rfl, rfl⟩⟩

/-- Connected read-only backend state used by witnesses. -/
def stConnectedRO : BackendState :=
  { session := some { bucket := "b", endpoint := "e" }, read_only := true }

/-- Connected write-mode backend state used by witnesses. -/
def stConnectedRW : BackendState :=
  { session := some { bucket := "b", endpoint := "e" }, read_only := false }

/-- Witness for C9 at a concrete connected state: the read-only guard blocks
`upload_file` and `delete_object` before any write, and write mode proceeds. -/
theorem c9_write_guard_witness :
    (upload_file {} {} stConnectedRO "f.parquet" "acic22" =
      (stConnectedRO, .error (.permissionError writeBlockedMsg), []) ∧
     upload_directory {} {} stConnectedRO ["f.parquet"] "acic22" =
      (stConnectedRO, .error (.permissionError writeBlockedMsg), []) ∧
     delete_object {} {} stConnectedRO "acic22/f.parquet" =
      (stConnectedRO, .error (.permissionError writeBlockedMsg), []) ∧
     delete_prefix_fn {} {} stConnectedRO "acic22" =
      (stConnectedRO, .error (.permissionError writeBlockedMsg), [])) ∧
    ((∃ r w, upload_file {} {} stConnectedRW "f.parquet" "acic22" =
        (stConnectedRW, .ok r, w)) ∧
     (∃ r w, delete_object {} {} stConnectedRW "acic22/f.parquet" =
        (stConnectedRW, .ok r, w))) := by
  constructor
  · exact (c9_write_guard {} {} stConnectedRO "f.parquet" "acic22"
      "acic22/f.parquet" ["f.parquet"] (by decide)).1 rfl
  · have h := (c9_write_guard {} {} stConnectedRW "f.parquet" "acic22"
      "acic22/f.parquet" ["f.parquet"] (by decide)).2 rfl
    exact ⟨h.1, h.2.2.1⟩

/-- When every listed deletion succeeds, the deletion loop reports success and
attempts exactly the listed keys. -/
theorem delete_all_success (remote : Remote) :
    ∀ ks : List String, (∀ k ∈ ks, remote.deleteError k = none) →
    delete_all remote ks = (none, ks) := by
  intro ks
  induction ks with
  | nil => intro _; rfl
  | cons k rest ih =>
    intro h
    have hk := h k (List.mem_cons_self _ _)
    have hrest := ih (fun k2 hk2 => h k2 (List.mem_cons_of_mem _ hk2))
    rw [delete_all, hk, hrest]

/-- C10: `delete_object` and `delete_prefix` never raise on a transport
failure during deletion — each returns `True` on success (including
`delete_prefix` on an empty listing) and returns the caught exception value
itself when listing or deleting fails; in write mode with an active session
both return `Except.ok` on every remote outcome. -/
theorem c10_delete_returns_errors (remote : Remote) (env : Env)
    (st : BackendState) (key key_pfx : String)
    (hconn : st.session.isSome = true) (hrw : st.read_only = false) :
    (remote.deleteError key = none →
        delete_object remote env st key = (st, .ok (.inl true), [key])) ∧
    (∀ e, remote.deleteError key = some e →
        delete_object remote env st key = (st, .ok (.inr e), [key])) ∧
    (remote.listKeys key_pfx = .ok [] →
        delete_prefix_fn remote env st key_pfx = (st, .ok (.inl true), [])) ∧
    (∀ ks, remote.listKeys key_pfx = .ok ks →
        (∀ k ∈ ks, remote.deleteError k = none) →
        delete_prefix_fn remote env st key_pfx = (st, .ok (.inl true), ks)) ∧
    (∀ e, remote.listKeys key_pfx = .error e →
        delete_prefix_fn remote env st key_pfx = (st, .ok (.inr e), [])) ∧
    (∃ v w, delete_object remote env st key = (st, .ok v, w)) ∧
    (∃ v w, delete_prefix_fn remote env st key_pfx = (st, .ok v, w)) := by
  have hens : _ensure_connected remote env st = (st, .ok ()) :=
    ensure_connected_of_some hconn
  refine ⟨?_, ?_, ?_, ?_, ?_, ?_, ?_⟩
  · intro hd
    simp [delete_object, hens, _check_write_permission, hrw, hd]
  · intro e hd
    simp [delete_object, hens, _check_write_permission, hrw, hd]
  · intro hl
    simp [delete_prefix_fn, hens, _check_write_permission, hrw, hl]
  · intro ks hl hall
    cases ks with
    | nil => simp [delete_prefix_fn, hens, _check_write_permission, hrw, hl]
    | cons k rest =>
      simp [delete_prefix_fn, hens, _check_write_permission, hrw, hl,
        delete_all_success remote (k :: rest) hall]
  · intro e hl
    simp [delete_prefix_fn, hens, _check_write_permission, hrw, hl]
  · cases hd : remote.deleteError key with
    | none =>
      exact ⟨_, _, by simp [delete_object, hens, _check_write_permission, hrw, hd]; exact ⟨rfl, rfl⟩⟩
    | some e =>
      exact ⟨_, _, by simp [delete_object, hens, _check_write_permission, hrw, hd]; exact ⟨rfl, rfl⟩⟩
  · cases hl : remote.listKeys key_pfx with
    | error e =>
      exact ⟨_, _, by simp [delete_prefix_fn, hens, _check_write_permission, hrw, hl]; exact ⟨rfl, rfl⟩⟩
    | ok ks =>
      cases ks with
      | nil =>
        exact ⟨_, _, by simp [delete_prefix_fn, hens, _check_write_permission, hrw, hl]; exact ⟨rfl, rfl⟩⟩
      | cons k rest =>
        cases hda : delete_all remote (k :: rest) with
        | mk o ws =>
          cases o with
          | none =>
            exact ⟨_, _, by simp [delete_prefix_fn, hens, _check_write_permission, hrw, hl, hda]; exact ⟨rfl, rfl⟩⟩
          | some e =>
            exact ⟨_, _, by simp [delete_prefix_fn, hens, _check_write_permission, hrw, hl, hda]; exact ⟨rfl, rfl⟩⟩

/-- Concrete remote for the C10 witness: deleting key `bad` fails, everything
else succeeds; listing `empty` is empty, any other listing returns two keys. -/
def c10Remote : Remote :=
  { deleteError := fun k => if k = "bad" then some .otherError else none
    listKeys := fun p => if p = "empty" then .ok [] else .ok ["a", "b"] }

/-- Witness for C10 at concrete inputs: a failed deletion returns the caught
exception, a full deletion returns `True`, and an empty listing is a no-op
success. -/
theorem c10_delete_returns_errors_witness :
    delete_object c10Remote {} stConnectedRW "bad" =
      (stConnectedRW, .ok (.inr .otherError), ["bad"]) ∧
    delete_prefix_fn c10Remote {} stConnectedRW "pfx" =
      (stConnectedRW, .ok (.inl true), ["a", "b"]) ∧
    delete_prefix_fn c10Remote {} stConnectedRW "empty" =
      (stConnectedRW, .ok (.inl true), []) := by
  refine ⟨?_, ?_, ?_⟩
  · exact (c10_delete_returns_errors c10Remote {} stConnectedRW "bad" "pfx"
      (by decide) rfl).2.1 .otherError (by decide)
  · exact (c10_delete_returns_errors c10Remote {} stConnectedRW "bad" "pfx"
      (by decide) rfl).2.2.2.1 ["a", "b"] (by decide) (by decide)
  · exact (c10_delete_returns_errors c10Remote {} stConnectedRW "bad" "empty"
      (by decide) rfl).2.2.1 (by decide)

/-!
Lemmas for the metadata resolver and the random loader.
-/

/-- Membership in the allowed generator-id set computed by
`_indices_for_difficulty`. -/
theorem mem_allowed_dgps {dgp_info : List (Int × DgpRecord)} {tiers : List String}
    {g : Int} :
    (g ∈ (dgp_info.filter (fun p =>
        match p.2.difficulty_tier with
        | some t => decide (t ∈ tiers)
        | none => false)).map Prod.fst) ↔
    ∃ drec, (g, drec) ∈ dgp_info ∧ ∃ t, drec.difficulty_tier = some t ∧ t ∈ tiers := by
  rw [List.mem_map]
  constructor
  · rintro ⟨⟨g2, drec⟩, hp, rfl⟩
    obtain ⟨hmem, hpred⟩ := List.mem_filter.mp hp
    cases htier : drec.difficulty_tier with
    | none => rw [htier] at hpred; simp at hpred
    | some t =>
      rw [htier] at hpred
      exact ⟨drec, hmem, t, htier, by simpa using hpred⟩
  · rintro ⟨drec, hmem, t, htier, ht⟩
    exact ⟨(g, drec), List.mem_filter.mpr ⟨hmem, by rw [htier]; simpa using ht⟩, rfl⟩

/-- Membership in the filtered simulation index list of
`_indices_for_difficulty`. -/
theorem mem_indices_filter {meta : List (Int × SimRecord)} {allowed : List Int}
    {i : Int} :
    (i ∈ (meta.filter (fun p =>
        match p.2.dgp with
        | some g => decide (g ∈ allowed)
        | none => false)).map Prod.fst) ↔
    ∃ rec, (i, rec) ∈ meta ∧ ∃ g, rec.dgp = some g ∧ g ∈ allowed := by
  rw [List.mem_map]
  constructor
  · rintro ⟨⟨i2, rec⟩, hp, rfl⟩
    obtain ⟨hmem, hpred⟩ := List.mem_filter.mp hp
    cases hg : rec.dgp with
    | none => rw [hg] at hpred; simp at hpred
    | some g =>
      rw [hg] at hpred
      exact ⟨rec, hmem, g, hg, by simpa using hpred⟩
  · rintro ⟨rec, hmem, g, hg, hall⟩
    exact ⟨(i, rec), List.mem_filter.mpr ⟨hmem, by rw [hg]; simpa using hall⟩, rfl⟩

/-- When the simulation index has duplicate-free keys, so does every eligible
index list produced by `_indices_for_difficulty`. -/
theorem indices_for_difficulty_nodup {difficulty : Option String}
    {meta : List (Int × SimRecord)} {dgp_info : List (Int × DgpRecord)} {l : List Int}
    (hmeta : (meta.map Prod.fst).Nodup)
    (h : _indices_for_difficulty difficulty meta dgp_info = .ok l) : l.Nodup := by
  unfold _indices_for_difficulty at h
  cases ht : _difficulty_to_tiers difficulty with
  | error e => rw [ht] at h; cases h
  | ok tiers =>
    rw [ht] at h
    cases tiers with
    | none =>
      cases h
      exact (List.perm_insertionSort _ _).nodup_iff.mpr hmeta
    | some ts =>
      cases h
      refine (List.perm_insertionSort _ _).nodup_iff.mpr ?_
      exact (((List.filter_sublist _).map Prod.fst).nodup hmeta)

/-- A sorted eligible list: `_indices_for_difficulty` always sorts its
result ascending. -/
theorem indices_for_difficulty_sorted {difficulty : Option String}
    {meta : List (Int × SimRecord)} {dgp_info : List (Int × DgpRecord)} {l : List Int}
    (h : _indices_for_difficulty difficulty meta dgp_info = .ok l) :
    l.Sorted (· ≤ ·) := by
  unfold _indices_for_difficulty at h
  cases ht : _difficulty_to_tiers difficulty with
  | error e => rw [ht] at h; cases h
  | ok tiers =>
    rw [ht] at h
    cases tiers with
    | none => cases h; exact List.sorted_insertionSort _ _
    | some ts => cases h; exact List.sorted_insertionSort _ _

/-- Keys of a successful `load_simulations` result are exactly the requested
indices, in order. -/
theorem load_simulations_ok_keys (store : SimStore) (pfx : String)
    (meta : List (Int × SimRecord)) :
    ∀ (indices : List Int) (out : List (Int × Frame)),
    load_simulations store indices pfx meta = .ok out →
    out.map Prod.fst = indices := by
  intro indices
  induction indices with
  | nil =>
    intro out h
    cases h
    rfl
  | cons i rest ih =>
    intro out h
    rw [load_simulations] at h
    cases hst : store (pfx ++ "/" ++
        (match meta.lookup i with
         | some r => r.filename.getD ("sim_" ++ pad4 i ++ ".parquet")
         | none => "sim_" ++ pad4 i ++ ".parquet")) with
    | error e => rw [hst] at h; cases h
    | ok f =>
      rw [hst] at h
      cases hrest : load_simulations store rest pfx meta with
      | error e => rw [hrest] at h; cases h
      | ok out2 =>
        rw [hrest] at h
        cases h
        simp [ih out2 hrest]

/-- C6: for every pair of metadata documents, `_indices_for_difficulty` with
difficulty `all` (whose resolved tier set is `None`) returns all simulation
indices sorted ascending, and with any other valid difficulty returns exactly
the simulation indices whose generator-id resolves, through the DGP info
document, to a tier equal to that difficulty, sorted ascending; in particular
the two-hop join on the documented example metadata yields `[1]` for `easy`
and `[1, 2]` for `all`. -/
theorem c6_indices_for_difficulty_join (meta : List (Int × SimRecord))
    (dgp_info : List (Int × DgpRecord)) :
    (_indices_for_difficulty (some "all") meta dgp_info =
      .ok ((meta.map Prod.fst).insertionSort (· ≤ ·))) ∧
    (∀ d, d ∈ VALID_DIFFICULTIES → d ≠ "all" →
      ∃ l, _indices_for_difficulty (some d) meta dgp_info = .ok l ∧
        l.Sorted (· ≤ ·) ∧
        (∀ i, i ∈ l ↔ ∃ rec, (i, rec) ∈ meta ∧ ∃ g, rec.dgp = some g ∧
          ∃ drec, (g, drec) ∈ dgp_info ∧ drec.difficulty_tier = some d)) ∧
    (_indices_for_difficulty (some "easy")
        [(1, { dgp := some 10 }), (2, { dgp := some 20 })]
        [(10, { difficulty_tier := some "easy" }),
         (20, { difficulty_tier := some "hard" })] = .ok [1]) ∧
    (_indices_for_difficulty (some "all")
        [(1, { dgp := some 10 }), (2, { dgp := some 20 })]
        [(10, { difficulty_tier := some "easy" }),
         (20, { difficulty_tier := some "hard" })] = .ok [1, 2]) := by
  have hall : _difficulty_to_tiers (some "all") = .ok none := by decide
  refine ⟨?_, ?_, by decide, by decide⟩
  · simp [_indices_for_difficulty, hall]
  · intro d hmem hne
    have hd : _difficulty_to_tiers (some d) = .ok (some [d]) := by
      simp only [VALID_DIFFICULTIES, List.mem_cons, List.not_mem_nil, or_false] at hmem
      rcases hmem with rfl | rfl | rfl | rfl | rfl | rfl
      · exact absurd rfl hne
      all_goals decide
    refine ⟨((meta.filter (fun p =>
        match p.2.dgp with
        | some g => decide (g ∈ ((dgp_info.filter (fun q =>
            match q.2.difficulty_tier with
            | some t => decide (t ∈ [d])
            | none => false)).map Prod.fst))
        | none => false)).map Prod.fst).insertionSort (· ≤ ·), ?_, ?_, ?_⟩
    · simp only [_indices_for_difficulty, hd]
    · exact List.sorted_insertionSort _ _
    intro i
    rw [List.mem_insertionSort, mem_indices_filter]
    constructor
    · rintro ⟨rec, hm, g, hg, hallw⟩
      obtain ⟨drec, hdm, t, htier, ht⟩ := mem_allowed_dgps.mp hallw
      rw [List.mem_singleton] at ht
      subst ht
      exact ⟨rec, hm, g, hg, drec, hdm, htier⟩
    · rintro ⟨rec, hm, g, hg, drec, hdm, htier⟩
      exact ⟨rec, hm, g, hg,
        mem_allowed_dgps.mpr ⟨drec, hdm, d, htier, List.mem_singleton.mpr rfl⟩⟩

/-- Concrete metadata index for the C6 witness. -/
def c6Meta : List (Int × SimRecord) := [(1, { dgp := some 10 }), (2, { dgp := some 20 })]

/-- Concrete DGP info for the C6 witness. -/
def c6Dgp : List (Int × DgpRecord) :=
  [(10, { difficulty_tier := some "easy" }), (20, { difficulty_tier := some "hard" })]

/-- Witness for C6 on the documented example documents. -/
theorem c6_indices_for_difficulty_join_witness :
    ∃ l, _indices_for_difficulty (some "easy") c6Meta c6Dgp = .ok l ∧
      l.Sorted (· ≤ ·) ∧
      (∀ i, i ∈ l ↔ ∃ rec, (i, rec) ∈ c6Meta ∧ ∃ g, rec.dgp = some g ∧
        ∃ drec, (g, drec) ∈ c6Dgp ∧ drec.difficulty_tier = some "easy") :=
  (c6_indices_for_difficulty_join c6Meta c6Dgp).2.1 "easy" (by decide) (by decide)

/-- Counterexample to C7 as stated: the label `" easy "` is not a member of
the fixed enumeration, yet `_difficulty_to_tiers` does not raise `ValueError`
on it — the source strips surrounding whitespace before the membership
check. -/
theorem c7_difficulty_strict_membership_cex :
    _difficulty_to_tiers (some " easy ") = .ok (some ["easy"]) ∧
    ¬ " easy " ∈ VALID_DIFFICULTIES := by
  exact ⟨by decide, by decide⟩

/-- C7 (amended): `_difficulty_to_tiers` first strips surrounding whitespace
from the label, then performs a strict membership check of the stripped form
against the fixed enumeration `{all, very_easy, easy, medium, hard,
very_hard}`, raising `ValueError` on any label whose stripped form is
unrecognized; it returns `None` for a stripped `"all"` and the singleton tier
set of the stripped label otherwise, so the tier sets of `easy` and
`very_easy` are disjoint. -/
theorem c7_difficulty_strict_membership_amended :
    (∀ s : String, ¬ strTrim s ∈ VALID_DIFFICULTIES →
      _difficulty_to_tiers (some s) = .error (.valueError
        (s!"Invalid difficulty={s}. Allowed values: " ++ String.intercalate ", "
          (VALID_DIFFICULTIES.insertionSort (fun a b => charsLe a.data b.data = true))))) ∧
    (∀ s : String, strTrim s = "all" → _difficulty_to_tiers (some s) = .ok none) ∧
    (∀ s : String, strTrim s ∈ VALID_DIFFICULTIES → strTrim s ≠ "all" →
      _difficulty_to_tiers (some s) = .ok (some [strTrim s])) ∧
    (∀ t1 t2, _difficulty_to_tiers (some "easy") = .ok (some t1) →
      _difficulty_to_tiers (some "very_easy") = .ok (some t2) →
      ∀ x ∈ t1, ¬ x ∈ t2) := by
  refine ⟨?_, ?_, ?_, ?_⟩
  · intro s h
    simp only [_difficulty_to_tiers]
    rw [if_pos h]
  · intro s h
    simp only [_difficulty_to_tiers]
    rw [if_neg (not_not_intro (by rw [h]; decide)), if_pos h]
  · intro s hmem hne
    simp only [_difficulty_to_tiers]
    rw [if_neg (not_not_intro hmem), if_neg hne]
  · intro t1 t2 h1 h2
    have e1 : _difficulty_to_tiers (some "easy") = .ok (some ["easy"]) := by decide
    have e2 : _difficulty_to_tiers (some "very_easy") = .ok (some ["very_easy"]) := by
      decide
    rw [e1] at h1
    rw [e2] at h2
    simp only [Except.ok.injEq, Option.some.injEq] at h1 h2
    subst h1
    subst h2
    decide

/-- Witness for the amended C7 at concrete labels. -/
theorem c7_difficulty_strict_membership_amended_witness :
    _difficulty_to_tiers (some "bogus") = .error (.valueError
      "Invalid difficulty=bogus. Allowed values: all, easy, hard, medium, very_easy, very_hard") ∧
    _difficulty_to_tiers (some "all") = .ok none ∧
    _difficulty_to_tiers (some "easy") = .ok (some ["easy"]) := by
  refine ⟨?_, ?_, ?_⟩
  · have h := c7_difficulty_strict_membership_amended.1 "bogus" (by decide)
    rw [h]
    decide
  · exact c7_difficulty_strict_membership_amended.2.1 "all" (by decide)
  · have h := c7_difficulty_strict_membership_amended.2.2.1 "easy" (by decide) (by decide)
    rw [h]
    decide

/-- C5: `load_random_simulations` raises `ValueError` whenever `n` is not
positive or exceeds the eligible population for the difficulty; otherwise,
for any generator satisfying the documented contract of a seeded draw without
replacement, it selects `n` distinct eligible indices and loads them in
ascending order, and the selected index list does not depend on the store —
two runs with the same seed, `n` and difficulty select the same indices. -/
theorem c5_load_random_simulations
    (sample : Option Int → List Int → Nat → List Int)
    (store store2 : SimStore) (n : Int) (difficulty : Option String) (pfx : String)
    (seed : Option Int) (meta : List (Int × SimRecord))
    (dgp_info : List (Int × DgpRecord))
    (hmeta : (meta.map Prod.fst).Nodup)
    (hsample : ∀ sd pool k, pool.Nodup → k ≤ pool.length →
      (sample sd pool k).Nodup ∧ (sample sd pool k).length = k ∧
      ∀ x ∈ sample sd pool k, x ∈ pool) :
    (n ≤ 0 → load_random_simulations sample store n difficulty pfx seed meta dgp_info =
      .error (.valueError "n must be a positive integer.")) ∧
    (∀ eligible, 0 < n →
      _indices_for_difficulty difficulty meta dgp_info = .ok eligible →
      (eligible.length : Int) < n →
      load_random_simulations sample store n difficulty pfx seed meta dgp_info =
        .error (.valueError
          s!"Requested n={n}, but only {eligible.length} simulations available.")) ∧
    (∀ eligible out, 0 < n →
      _indices_for_difficulty difficulty meta dgp_info = .ok eligible →
      n ≤ (eligible.length : Int) →
      load_random_simulations sample store n difficulty pfx seed meta dgp_info = .ok out →
      out.map Prod.fst = (sample seed eligible n.toNat).insertionSort (· ≤ ·) ∧
      (out.map Prod.fst).length = n.toNat ∧
      (out.map Prod.fst).Nodup ∧
      (∀ i ∈ out.map Prod.fst, i ∈ eligible) ∧
      (out.map Prod.fst).Sorted (· ≤ ·)) ∧
    (∀ out out2,
      load_random_simulations sample store n difficulty pfx seed meta dgp_info = .ok out →
      load_random_simulations sample store2 n difficulty pfx seed meta dgp_info = .ok out2 →
      out.map Prod.fst = out2.map Prod.fst) := by
  refine ⟨?_, ?_, ?_, ?_⟩
  · intro h
    simp only [load_random_simulations, if_pos h]
  · intro eligible hpos helig hlt
    simp only [load_random_simulations, if_neg (by omega : ¬ n ≤ 0), helig]
    rw [if_pos hlt]
  · intro eligible out hpos helig hle hok
    simp only [load_random_simulations, if_neg (by omega : ¬ n ≤ 0), helig] at hok
    rw [if_neg (by omega : ¬ (eligible.length : Int) < n)] at hok
    have hkeys := load_simulations_ok_keys store pfx meta _ _ hok
    have helnodup := indices_for_difficulty_nodup hmeta helig
    have hlen : n.toNat ≤ eligible.length := by omega
    obtain ⟨hnd, hln, hsub⟩ := hsample seed eligible n.toNat helnodup hlen
    have hperm := List.perm_insertionSort (fun a b => a ≤ b)
      (sample seed eligible n.toNat)
    refine ⟨hkeys, ?_, ?_, ?_, ?_⟩
    · rw [hkeys, hperm.length_eq]
      exact hln
    · rw [hkeys]
      exact hperm.nodup_iff.mpr hnd
    · rw [hkeys]
      intro i hi
      exact hsub i ((List.mem_insertionSort _).mp hi)
    · rw [hkeys]
      exact List.sorted_insertionSort _ _
  · intro out out2 h1 h2
    by_cases hn : n ≤ 0
    · simp only [load_random_simulations, if_pos hn] at h1
      cases h1
    · simp only [load_random_simulations, if_neg hn] at h1 h2
      cases helig : _indices_for_difficulty difficulty meta dgp_info with
      | error e => rw [helig] at h1; cases h1
      | ok eligible =>
        simp only [helig] at h1 h2
        by_cases hlt : (eligible.length : Int) < n
        · rw [if_pos hlt] at h1
          cases h1
        · rw [if_neg hlt] at h1 h2
          rw [load_simulations_ok_keys store pfx meta _ _ h1,
            load_simulations_ok_keys store2 pfx meta _ _ h2]

/-- The deterministic prefix draw satisfies the without-replacement sampling
contract assumed of the external seeded generator. -/
theorem take_sample_spec (sd : Option Int) (pool : List Int) (k : Nat)
    (hnd : pool.Nodup) (hk : k ≤ pool.length) :
    ((fun (_ : Option Int) (p : List Int) (m : Nat) => p.take m) sd pool k).Nodup ∧
    ((fun (_ : Option Int) (p : List Int) (m : Nat) => p.take m) sd pool k).length = k ∧
    ∀ x ∈ (fun (_ : Option Int) (p : List Int) (m : Nat) => p.take m) sd pool k,
      x ∈ pool := by
  refine ⟨(List.take_sublist k pool).nodup hnd, ?_, fun x hx => List.take_subset _ _ hx⟩
  rw [List.length_take]
  omega

/-- Concrete all-ok simulation store for the C5 witness. -/
def c5Store : SimStore := fun _ => .ok ⟨0⟩

/-- Witness for C5 at concrete inputs: a non-positive `n` and an `n` larger
than the eligible population both raise `ValueError`. -/
theorem c5_load_random_simulations_witness :
    load_random_simulations (fun _ p m => p.take m) c5Store 0 (some "all")
      "acic22/simulations" none c6Meta c6Dgp =
      .error (.valueError "n must be a positive integer.") ∧
    load_random_simulations (fun _ p m => p.take m) c5Store 3 (some "all")
      "acic22/simulations" none c6Meta c6Dgp =
      .error (.valueError "Requested n=3, but only 2 simulations available.") := by
  constructor
  · exact (c5_load_random_simulations (fun _ p m => p.take m) c5Store c5Store 0
      (some "all") "acic22/simulations" none c6Meta c6Dgp (by decide)
      take_sample_spec).1 (by decide)
  · have h := (c5_load_random_simulations (fun _ p m => p.take m) c5Store c5Store 3
      (some "all") "acic22/simulations" none c6Meta c6Dgp (by decide)
      take_sample_spec).2.1 [1, 2] (by decide) (by decide) (by decide)
    rw [h]
    decide

/-- C8: for every key, calling `_download_file` twice with `use_cache = true`
returns byte-identical content and issues at most one remote transfer: when
the key was not cached the first call performs the single transfer and stores
the bytes under the key, and the second call answers from the cache with no
transfer. -/
theorem c8_download_cache_idempotent (remote : String → List Nat)
    (cache : List (String × List Nat)) (key : String)
    (b1 : List Nat) (c1 : List (String × List Nat)) (t1 : Nat)
    (b2 : List Nat) (c2 : List (String × List Nat)) (t2 : Nat)
    (h1 : _download_file remote cache key true = (b1, c1, t1))
    (h2 : _download_file remote c1 key true = (b2, c2, t2)) :
    b2 = b1 ∧ t2 = 0 ∧ t1 + t2 ≤ 1 ∧
    (cache.lookup key = none → t1 = 1 ∧ c1.lookup key = some b1) ∧
    (∀ b, cache.lookup key = some b → t1 = 0 ∧ b1 = b ∧ c1 = cache) := by
  cases hl : cache.lookup key with
  | some b =>
    simp only [_download_file, hl, if_true, Prod.mk.injEq] at h1
    obtain ⟨hb1, hc1, ht1⟩ := h1
    subst hb1; subst hc1; subst ht1
    simp only [_download_file, hl, if_true, Prod.mk.injEq] at h2
    obtain ⟨hb2, hc2, ht2⟩ := h2
    subst hb2; subst hc2; subst ht2
    refine ⟨rfl, rfl, by omega, ?_, ?_⟩
    · intro hne
      exact Option.noConfusion hne
    · intro b2 hb
      exact ⟨rfl, Option.some.inj hb, rfl⟩
  | none =>
    simp only [_download_file, hl, if_true, Prod.mk.injEq] at h1
    obtain ⟨hb1, hc1, ht1⟩ := h1
    subst hb1; subst hc1; subst ht1
    have hl2 : (((key, remote key)) :: cache).lookup key = some (remote key) := by
      simp [List.lookup]
    simp only [_download_file, hl2, if_true, Prod.mk.injEq] at h2
    obtain ⟨hb2, hc2, ht2⟩ := h2
    subst hb2; subst hc2; subst ht2
    refine ⟨rfl, rfl, by omega, ?_, ?_⟩
    · intro hne
      exact ⟨rfl, hl2⟩
    · intro b2 hb
      exact Option.noConfusion hb

/-- Witness for C8 at a concrete remote, key and empty cache. -/
theorem c8_download_cache_idempotent_witness :
    ([7] : List Nat) = [7] ∧ (0 : Nat) = 0 ∧ 1 + 0 ≤ 1 ∧
    (([] : List (String × List Nat)).lookup "k" = none →
      1 = 1 ∧ [("k", [7])].lookup "k" = some [7]) ∧
    (∀ b, ([] : List (String × List Nat)).lookup "k" = some b →
      1 = 0 ∧ [7] = b ∧ [("k", [7])] = []) :=
  c8_download_cache_idempotent (fun _ => [7]) [] "k" [7] [("k", [7])] 1
    [7] [("k", [7])] 0 (by decide) (by decide)
